import Mathlib

/-!
# Verification development for `Catorpilor/weed`

A shallow embedding of

* `internal/schedule/schedule.go` (`Scheduler.loop`),
* `internal/claim/service.go` (`NewService`, `learnFromReference`, `Claim`,
  `findATAWithProgram`),
* `internal/wallet/wallet.go` (`Load`, `expandHome`),

followed by theorems about the embedded definitions.

Conventions.

* A Go `(value, error)` result whose value is only used when the error is nil is an
  `Except String _`; where the source discards the error (`x, _ := f()`), the embedded
  call returns the value together with the optional error text.
* Functions of the `solana-go` library, of the Go standard library and RPC responses are
  not part of the repository. They are parameters (`Lib`, `Rpc`, `Wallet.Env`), so every
  theorem holds for all behaviours of these collaborators.
* `time.Duration` is an integer number of nanoseconds (an `int64`); a `float64` is the
  exact rational it denotes, and every float64 operation of the scheduler is the exact
  operation followed by `Schedule.roundToFloat64` (round to nearest, ties to even).
-/

set_option autoImplicit false

/-! ## `internal/schedule/schedule.go` -/

namespace Schedule

/-- The Go constant `time.Second`, in nanoseconds. -/
def second : Int := 1000000000

/-- The Go constant `time.Minute`, in nanoseconds. -/
def minute : Int := 60 * second

/-- Rounding of an exact value to the nearest integer, a tie going to the even one. -/
def roundHalfEven (q : ℚ) : Int :=
  if q - ⌊q⌋ < 1 / 2 then ⌊q⌋
  else if 1 / 2 < q - ⌊q⌋ then ⌊q⌋ + 1
  else if ⌊q⌋ % 2 = 0 then ⌊q⌋ else ⌊q⌋ + 1

/-- The binary exponent of the float64 binade of a positive value: `⌊log₂ x⌋`, and -1022
for the subnormal range. -/
def float64Exponent (x : ℚ) : Int := max (Int.log 2 x) (-1022)

/-- The spacing of the float64 values in the binade of a positive value (53-bit
significand). -/
def float64Ulp (x : ℚ) : ℚ := 2 ^ (float64Exponent x - 52)

/-- The float64 nearest to a non-negative exact value, a tie going to the even
significand (IEEE 754 round-to-nearest-even). -/
def roundNonneg (x : ℚ) : ℚ := roundHalfEven (x / float64Ulp x) * float64Ulp x

/-- The result of one float64 operation whose exact result is `x`: the nearest float64,
ties to even, symmetric in the sign. The finite float64 values are the fixed points of
this function. Results of magnitude 2^1024 and more, which round to an infinity, do not
occur in `Scheduler.loop`: every intermediate value is below 2^65 in magnitude. -/
def roundToFloat64 (x : ℚ) : ℚ := if 0 ≤ x then roundNonneg x else -roundNonneg (-x)

/-- Conversion `time.Duration(x)` of a float64 to an `int64`: Go truncates toward zero;
when the truncated value is outside the range of `int64` the result is
implementation-dependent, given by `ovf`. -/
def truncToDuration (ovf : ℚ → Int) (x : ℚ) : Int :=
  let t : Int := if 0 ≤ x then ⌊x⌋ else ⌈x⌉
  if -9223372036854775808 ≤ t ∧ t ≤ 9223372036854775807 then t else ovf x

/-- The out-of-range conversion of amd64, which yields the smallest `int64`. -/
def overflowToMin : ℚ → Int := fun _ => -9223372036854775808

/-- The float64 factor `1 + j` of `Scheduler.loop` (schedule.go lines 26-27), for the
float64 jitter fraction `jitter` and the value `r = rand.Float64()` drawn in `[0, 1)`,
each operation rounded to float64:

```go
j := (rand.Float64()*2 - 1) * s.jitter
... (1 + j)
```

With `fma` the product `t * jitter` and the addition of 1 are fused into one rounded
operation, as the Go specification allows and some architectures do. -/
def jitterFactor (fma : Bool) (jitter r : ℚ) : ℚ :=
  let t := roundToFloat64 (roundToFloat64 (r * 2) - 1)
  if fma then roundToFloat64 (1 + t * jitter)
  else roundToFloat64 (1 + roundToFloat64 (t * jitter))

/-- One cycle of `Scheduler.loop` (schedule.go lines 25-30): the delay armed on the timer,
for the `int64` base interval `base` (nanoseconds), the float64 jitter fraction `jitter`
and the value `r = rand.Float64()` drawn in `[0, 1)`.

```go
j := (rand.Float64()*2 - 1) * s.jitter
d := time.Duration(float64(s.base) * (1 + j))
if d < time.Second { d = time.Second }
```

The conversion `float64(s.base)` and the product are rounded to float64, the conversion
to `time.Duration` truncates. -/
def loopDelay (fma : Bool) (ovf : ℚ → Int) (base : Int) (jitter r : ℚ) : Int :=
  let d := truncToDuration ovf
    (roundToFloat64 (roundToFloat64 (base : ℚ) * jitterFactor fma jitter r))
  if d < second then second else d

/-- The value of `time.Duration(float64(base) * (1 + u))` for a float64 jitter `u`: the
second statement of the loop taken at a given jitter. -/
def jitteredDuration (ovf : ℚ → Int) (base : Int) (u : ℚ) : Int :=
  truncToDuration ovf (roundToFloat64 (roundToFloat64 (base : ℚ) * roundToFloat64 (1 + u)))

end Schedule

/-! ## `internal/claim/service.go` -/

namespace ClaimService

/-- A `solana.PublicKey`. The 32 bytes of a key and its base58 text (`String()`) determine
each other, so a key is represented by that text. -/
structure PublicKey where
  b58 : String
deriving DecidableEq, Repr

/-- The zero value `solana.PublicKey{}` (32 zero bytes), whose base58 text is 32 ones. -/
def PublicKey.zero : PublicKey := ⟨"11111111111111111111111111111111"⟩

/-- The method `PublicKey.IsZero`. -/
def PublicKey.IsZero (k : PublicKey) : Bool := decide (k = PublicKey.zero)

/-- The library constant `solana.SystemProgramID`. -/
def SystemProgramID : PublicKey := ⟨"11111111111111111111111111111111"⟩

/-- The library constant `solana.SPLAssociatedTokenAccountProgramID`. -/
def SPLAssociatedTokenAccountProgramID : PublicKey :=
  ⟨"ATokenGPvbdGVxr1b2hvZbsiqW5xWH25efTNsLJA8knL"⟩

/-- The test of service.go lines 115-116 and 125-126: the key prints as one of the two
well-known token program ids. -/
def isTokenProgram (prog : PublicKey) : Bool :=
  prog.b58 == "TokenzQdBNbLqP5VEhdkAS6EPFLC1PHnBqCXEpPxuEb" ||
    prog.b58 == "TokenkegQfeZyiNwAJbNbGKPFXCWuBvf9Ss623VQ5DA"

/-- A `solana.AccountMeta`. -/
structure AccountMeta where
  publicKey : PublicKey
  isSigner : Bool
  isWritable : Bool
deriving DecidableEq, Repr

/-- A `solana.CompiledInstruction`: indices into the account keys and the payload bytes. -/
structure CompiledInstruction where
  programIDIndex : Nat
  accounts : List Nat
  data : List Nat
deriving DecidableEq, Repr

/-- One entry of `Message.AddressTableLookups`. -/
structure MessageAddressTableLookup where
  accountKey : PublicKey
  writableIndexes : List Nat
  readonlyIndexes : List Nat
deriving DecidableEq, Repr

/-- The parts of a `solana.Message` the service reads. -/
structure Message where
  versioned : Bool
  accountKeys : List PublicKey
  instructions : List CompiledInstruction
  addressTableLookups : List MessageAddressTableLookup
deriving DecidableEq, Repr

/-- An `rpc.InnerInstruction`: the instructions invoked by one top-level instruction. -/
structure InnerInstruction where
  index : Nat
  instructions : List CompiledInstruction
deriving DecidableEq, Repr

/-- An `rpc.TokenBalance`. -/
structure TokenBalance where
  accountIndex : Nat
  mint : PublicKey
deriving DecidableEq, Repr

/-- An `rpc.TransactionMeta`. -/
structure TransactionMeta where
  innerInstructions : List InnerInstruction
  postTokenBalances : List TokenBalance
deriving DecidableEq, Repr

/-- An `rpc.GetTransactionResult`: the encoded transaction and the optional metadata. -/
structure GetTransactionResult where
  transaction : List Nat
  txMeta : Option TransactionMeta
deriving DecidableEq, Repr

/-- An `rpc.Account`. -/
structure Account where
  lamports : Nat
  data : List Nat
deriving DecidableEq, Repr

/-- An `rpc.GetAccountInfoResult`; `value` is the pointer field `Value`. -/
structure GetAccountInfoResult where
  value : Option Account
deriving DecidableEq, Repr

/-- The method `GetAccountInfoResult.GetBinary`. -/
def GetAccountInfoResult.getBinary (a : GetAccountInfoResult) : List Nat :=
  match a.value with
  | none => []
  | some v => v.data

/-- The value of an `rpc.SimulateTransactionResponse`: `err` is the `%v` text of the field
`Err` when it is not nil. -/
structure SimulateTransactionResult where
  err : Option String
  logs : List String
deriving DecidableEq, Repr

/-- One entry of an `rpc.GetSignatureStatusesResult`. -/
structure SignatureStatusesResult where
  confirmationStatus : String
deriving DecidableEq, Repr

/-- An `rpc.GetSignatureStatusesResult`. -/
structure GetSignatureStatusesResult where
  value : List (Option SignatureStatusesResult)
deriving DecidableEq, Repr

/-- A `solana.Instruction` as built by `Claim`: the two compute-budget builders and
`solana.NewInstruction` produce values of different dynamic types. -/
inductive Instruction where
  | setComputeUnitLimit (units : Nat)
  | setComputeUnitPrice (microLamports : Nat)
  | generic (programID : PublicKey) (accounts : List AccountMeta) (data : List Nat)
deriving DecidableEq, Repr

/-- A `solana.Transaction` as seen by the service. -/
structure Transaction where
  instructions : List Instruction
  recentBlockhash : String
  feePayer : PublicKey
  signatures : List String
deriving DecidableEq, Repr

/-- The struct `config.RPCConfig` (the field read by the service). -/
structure RPCConfig where
  commitment : String
deriving DecidableEq, Repr

/-- The struct `config.ClaimConfig` (the fields read by the service). -/
structure ClaimConfig where
  referenceSignature : String
  programID : String
  tokenProgramID : String
deriving DecidableEq, Repr

/-- The struct `config.FeesConfig`. -/
structure FeesConfig where
  priorityMicrolamports : Nat
  computeUnitLimit : Nat
deriving DecidableEq, Repr

/-- The struct `config.Config` (the fields read by the service). -/
structure Config where
  rpc : RPCConfig
  claim : ClaimConfig
  fees : FeesConfig
  maxRetries : Int
deriving DecidableEq, Repr

/-- The struct `ClaimOptions`. -/
structure ClaimOptions where
  simulateOnly : Bool
deriving DecidableEq, Repr

/-- The struct `Service`; `wallet` holds the bytes of the private key. -/
structure Service where
  wallet : List Nat
  cfg : Config
  claimProgram : PublicKey
  claimIxData : List Nat
  claimIxAccts : List AccountMeta
  tokenProgram : PublicKey
  mint : PublicKey
deriving DecidableEq, Repr

/-- How a call ends when it does not produce its value: it returns a Go `error` with the
given text, or it panics (index out of range). -/
inductive Failure where
  | error (msg : String)
  | panic (what : String)
deriving DecidableEq, Repr

/-- The outcome of a call that may return an error or panic. -/
abbrev Result (α : Type) := Except Failure α

/-- The options of `SendTransactionWithOpts` set by `Claim`. -/
structure TransactionOpts where
  skipPreflight : Bool
  preflightCommitment : String
  maxRetries : Nat
deriving DecidableEq, Repr

/-- The functions of the `solana-go` library called by the service. -/
structure Lib where
  /-- The call `solana.PublicKeyFromBase58`: the key (zero on error) and the error text. -/
  publicKeyFromBase58 : String → PublicKey × Option String
  /-- The call `strings.TrimSpace`. -/
  trimSpace : String → String
  /-- The call `solana.SignatureFromBase58`. -/
  signatureFromBase58 : String → Except String String
  /-- The call `res.Transaction.GetTransaction()` followed by the field `Message`. -/
  decodeTransaction : List Nat → Except String Message
  /-- The call `msg.AddressTableLookups.NumLookups()`. -/
  numLookups : Message → Nat
  /-- The call `msg.AddressTableLookups.GetTableIDs()`. -/
  getTableIDs : Message → List PublicKey
  /-- The call `lookup.DecodeAddressLookupTableState`, then the field `Addresses`. -/
  decodeAddressLookupTableState : List Nat → Except String (List PublicKey)
  /-- The call `msg.SetAddressTables`. -/
  setAddressTables : Message → List (PublicKey × List PublicKey) → Except String Message
  /-- The call `msg.ResolveLookups`. -/
  resolveLookups : Message → Except String Message
  /-- The call `ci.ResolveInstructionAccounts(&msg)`. -/
  resolveInstructionAccounts : CompiledInstruction → Message → Result (List AccountMeta)
  /-- The call `msg.Program`: the key (used by the caller whatever the error) and the error text. -/
  program : Message → Nat → PublicKey × Option String
  /-- The call `msg.Account`. -/
  account : Message → Nat → Except String PublicKey
  /-- The call `PrivateKey.PublicKey`. -/
  publicKey : List Nat → PublicKey
  /-- The call `solana.FindProgramAddress` on seeds that are the bytes of keys: address and bump;
  its error is discarded by the caller. -/
  findProgramAddress : List PublicKey → PublicKey → PublicKey × Nat
  /-- The call `solana.NewTransaction` with the option `TransactionPayer`. -/
  newTransaction : List Instruction → String → PublicKey → Except String Transaction
  /-- The call `tx.Sign` with a private-key getter. -/
  sign : Transaction → (PublicKey → Option (List Nat)) → Except String Transaction

/-- The responses of the RPC collaborator. `signatureStatuses` lists the responses to the
successive `GetSignatureStatuses` polls that start before the 30-second deadline. -/
structure Rpc where
  getTransaction : String → Except String GetTransactionResult
  getAccountInfo : PublicKey → Option GetAccountInfoResult × Option String
  getLatestBlockhash : String → Except String String
  simulateTransaction : Transaction → Except String SimulateTransactionResult
  sendTransaction : Transaction → TransactionOpts → Except String String
  signatureStatuses : List (Option GetSignatureStatusesResult × Option String)

/-- A call made on the RPC collaborator, with its request. -/
inductive RpcCall where
  | getLatestBlockhash (commitment : String)
  | getAccountInfo (address : PublicKey)
  | simulateTransaction (tx : Transaction)
  | sendTransaction (tx : Transaction)
  | getSignatureStatuses (signature : String)
deriving DecidableEq, Repr

/-- The text of `fmt.Errorf(prefix + "%w", err)` for a wrapped failure; a panic is not
wrapped. -/
def Failure.wrap (pre : String) : Failure → Failure
  | .error msg => .error (pre ++ msg)
  | .panic what => .panic what

/-- The loop over `tableIDs` of `learnFromReference` (service.go lines 82-90). -/
def fetchAddressTables (lib : Lib) (rpc : Rpc) :
    List PublicKey → List (PublicKey × List PublicKey) →
      Except String (List (PublicKey × List PublicKey))
  | [], resolutions => .ok resolutions
  | id :: rest, resolutions =>
    match rpc.getAccountInfo id with
    | (_, some e) => .error ("fetch address table " ++ id.b58 ++ ": " ++ e)
    | (none, none) => .error ("fetch address table " ++ id.b58 ++ ": %!w(<nil>)")
    | (some acc, none) =>
      match lib.decodeAddressLookupTableState acc.getBinary with
      | .error e => .error ("decode address table " ++ id.b58 ++ ": " ++ e)
      | .ok addresses =>
        fetchAddressTables lib rpc rest
          ((id, addresses) :: resolutions.filter (fun p => decide (p.1 ≠ id)))

/-- The resolution of address lookups of `learnFromReference` (service.go lines 78-97). -/
def resolveAddressTables (lib : Lib) (rpc : Rpc) (msg : Message) : Except String Message :=
  if msg.versioned && decide (lib.numLookups msg > 0) then
    match fetchAddressTables lib rpc (lib.getTableIDs msg) [] with
    | .error e => .error e
    | .ok resolutions =>
      match lib.setAddressTables msg resolutions with
      | .error e => .error e
      | .ok msg1 => lib.resolveLookups msg1
  else .ok msg

/-- The loop over the top-level instructions of `learnFromReference`
(service.go lines 100-119). Indexing `msg.AccountKeys` out of range panics. -/
def scanTopLevel (lib : Lib) (msg : Message) :
    List CompiledInstruction → Service → Result Service
  | [], s => .ok s
  | ci :: rest, s =>
    match msg.accountKeys[ci.programIDIndex]? with
    | none => .error (.panic "index out of range")
    | some prog =>
      let captured : Result Service :=
        if prog = s.claimProgram then
          match lib.resolveInstructionAccounts ci msg with
          | .error f => .error (f.wrap "resolve claim accounts: ")
          | .ok metas => .ok { s with claimIxAccts := metas, claimIxData := ci.data }
        else .ok s
      match captured with
      | .error f => .error f
      | .ok s1 =>
        scanTopLevel lib msg rest
          (if isTokenProgram prog then { s1 with tokenProgram := prog } else s1)

/-- The body of the inner loop of `learnFromReference` (service.go lines 124-134). -/
def scanInnerInstruction (lib : Lib) (msg : Message) (s : Service)
    (ici : CompiledInstruction) : Service :=
  let prog := (lib.program msg ici.programIDIndex).1
  if isTokenProgram prog then
    let s1 := { s with tokenProgram := prog }
    match ici.accounts with
    | [] => s1
    | a :: _ =>
      match lib.account msg a with
      | .ok mk => { s1 with mint := mk }
      | .error _ => s1
  else s

/-- The two nested loops over `res.Meta.InnerInstructions` (service.go lines 122-136). -/
def scanInner (lib : Lib) (msg : Message) (inners : List InnerInstruction)
    (s : Service) : Service :=
  inners.foldl (fun acc inner => inner.instructions.foldl (scanInnerInstruction lib msg) acc) s

/-- The guarded scan of service.go lines 121-137: the inner instructions are scanned when
the token program is still zero after the top-level scan and the metadata is present. -/
def scanInnerIfUnknown (lib : Lib) (msg : Message) (txMeta : Option TransactionMeta)
    (s : Service) : Service :=
  match txMeta with
  | some m => if s.tokenProgram.IsZero then scanInner lib msg m.innerInstructions s else s
  | none => s

/-- The fallback of service.go lines 139-141: the mint of the first post token balance. -/
def fallbackMint (txMeta : Option TransactionMeta) (s : Service) : Service :=
  if s.mint.IsZero then
    match txMeta with
    | none => s
    | some m =>
      match m.postTokenBalances with
      | [] => s
      | b :: _ => { s with mint := b.mint }
  else s

/-- The text of the error of service.go line 143. -/
def errNoClaimInstruction : String :=
  "could not extract claim instruction from reference transaction"

/-- The text of the error of service.go line 146. -/
def errNoTokenProgram : String :=
  "could not detect token program id; set claim.token_program_id"

/-- The part of `learnFromReference` that reads the resolved message
(service.go lines 99-148). -/
def learnFromResolved (lib : Lib) (s : Service) (msg : Message)
    (txMeta : Option TransactionMeta) : Result Service :=
  match scanTopLevel lib msg msg.instructions s with
  | .error f => .error f
  | .ok s1 =>
    let s2 := scanInnerIfUnknown lib msg txMeta s1
    let s3 := fallbackMint txMeta s2
    if s3.claimIxAccts.length = 0 ∨ s3.claimIxData.length = 0 then
      .error (.error errNoClaimInstruction)
    else if s3.tokenProgram.IsZero ∧ s3.cfg.claim.tokenProgramID = "" then
      .error (.error errNoTokenProgram)
    else .ok s3

/-- The method `Service.learnFromReference` (service.go lines 59-149). -/
def learnFromReference (lib : Lib) (rpc : Rpc) (s : Service) (sig : String) :
    Result Service :=
  match lib.signatureFromBase58 (lib.trimSpace sig) with
  | .error e => .error (.error ("invalid reference_signature: " ++ e))
  | .ok signature =>
    match rpc.getTransaction signature with
    | .error e => .error (.error ("getTransaction: " ++ e))
    | .ok res =>
      match lib.decodeTransaction res.transaction with
      | .error e => .error (.error ("decode tx: " ++ e))
      | .ok msg0 =>
        match resolveAddressTables lib rpc msg0 with
        | .error e => .error (.error e)
        | .ok msg => learnFromResolved lib s msg res.txMeta

/-- The service allocated by `NewService` (service.go line 36): the learned fields hold
their zero values. -/
def emptyService (wallet : List Nat) (cfg : Config) : Service :=
  { wallet := wallet, cfg := cfg, claimProgram := PublicKey.zero, claimIxData := [],
    claimIxAccts := [], tokenProgram := PublicKey.zero, mint := PublicKey.zero }

/-- The part of `NewService` that parses the configured ids (service.go lines 36-47). -/
def parseIDs (lib : Lib) (wallet : List Nat) (cfg : Config) : Result Service :=
  match lib.publicKeyFromBase58 cfg.claim.programID with
  | (_, some e) => .error (.error ("invalid claim.program_id: " ++ e))
  | (claimProgram, none) =>
    let s := { emptyService wallet cfg with claimProgram := claimProgram }
    if cfg.claim.tokenProgramID ≠ "" then
      match lib.publicKeyFromBase58 cfg.claim.tokenProgramID with
      | (_, some e) => .error (.error ("invalid claim.token_program_id: " ++ e))
      | (tokenProgram, none) => .ok { s with tokenProgram := tokenProgram }
    else .ok s

/-- The function `NewService` (service.go lines 35-53). -/
def NewService (lib : Lib) (rpc : Rpc) (wallet : List Nat) (cfg : Config) : Result Service :=
  match parseIDs lib wallet cfg with
  | .error f => .error f
  | .ok s => learnFromReference lib rpc s cfg.claim.referenceSignature

/-- The function `findATAWithProgram` (service.go lines 257-264), without the bump. -/
def findATAWithProgram (lib : Lib) (owner mint tokenProgram : PublicKey) : PublicKey :=
  (lib.findProgramAddress [owner, tokenProgram, mint] SPLAssociatedTokenAccountProgramID).1

/-- The token program used to derive the holding account (service.go lines 173-177). -/
def ataTokenProgram (lib : Lib) (s : Service) : PublicKey :=
  if s.tokenProgram.IsZero then (lib.publicKeyFromBase58 s.cfg.claim.tokenProgramID).1
  else s.tokenProgram

/-- The address of the holding account derived by `Claim` (service.go line 178). -/
def ataAddress (lib : Lib) (s : Service) : PublicKey :=
  findATAWithProgram lib (lib.publicKey s.wallet) s.mint (ataTokenProgram lib s)

/-- The instruction creating the holding account (service.go lines 182-190). -/
def createATAInstruction (lib : Lib) (s : Service) : Instruction :=
  .generic SPLAssociatedTokenAccountProgramID
    [ { publicKey := lib.publicKey s.wallet, isSigner := true, isWritable := true },
      { publicKey := ataAddress lib s, isSigner := false, isWritable := true },
      { publicKey := lib.publicKey s.wallet, isSigner := false, isWritable := false },
      { publicKey := s.mint, isSigner := false, isWritable := false },
      { publicKey := SystemProgramID, isSigner := false, isWritable := false },
      { publicKey := ataTokenProgram lib s, isSigner := false, isWritable := false } ]
    []

/-- The test of service.go line 181 on the response of `GetAccountInfo`, whose error is
discarded: no result, no value, or zero lamports. -/
def accountMissing (resp : Option GetAccountInfoResult × Option String) : Bool :=
  match resp.1 with
  | none => true
  | some accInfo =>
    match accInfo.value with
    | none => true
    | some v => v.lamports == 0

/-- The instruction replayed from the template (service.go line 195). -/
def claimInstruction (s : Service) : Instruction :=
  .generic s.claimProgram s.claimIxAccts s.claimIxData

/-- The instruction list built by `Claim` (service.go lines 159-196), with the RPC calls
made while building it. -/
def buildInstructions (lib : Lib) (rpc : Rpc) (s : Service) :
    List Instruction × List RpcCall :=
  let ixs0 : List Instruction := []
  let ixs1 :=
    if s.cfg.fees.computeUnitLimit > 0 then
      ixs0 ++ [.setComputeUnitLimit s.cfg.fees.computeUnitLimit]
    else ixs0
  let ixs2 :=
    if s.cfg.fees.priorityMicrolamports > 0 then
      ixs1 ++ [.setComputeUnitPrice s.cfg.fees.priorityMicrolamports]
    else ixs1
  let (ixs3, calls) :=
    if !s.mint.IsZero then
      let ataAddr := ataAddress lib s
      if accountMissing (rpc.getAccountInfo ataAddr) then
        (ixs2 ++ [createATAInstruction lib s], [RpcCall.getAccountInfo ataAddr])
      else (ixs2, [RpcCall.getAccountInfo ataAddr])
    else (ixs2, [])
  (ixs3 ++ [claimInstruction s], calls)

/-- The test of service.go lines 241-243 on one response of `GetSignatureStatuses`. -/
def statusConfirmed (resp : Option GetSignatureStatusesResult × Option String) : Bool :=
  match resp with
  | (some st, none) =>
    match st.value with
    | some status :: _ =>
      status.confirmationStatus == "finalized" || status.confirmationStatus == "confirmed"
    | _ => false
  | _ => false

/-- The confirmation loop of `Claim` (service.go lines 238-250), run on the responses to
the polls that start before the deadline: the returned text and the calls made. -/
def confirmLoop (sig : String) :
    List (Option GetSignatureStatusesResult × Option String) → String × List RpcCall
  | [] => ("submitted (pending): " ++ sig, [])
  | resp :: rest =>
    if statusConfirmed resp then ("submitted: " ++ sig, [RpcCall.getSignatureStatuses sig])
    else
      let (out, calls) := confirmLoop sig rest
      (out, RpcCall.getSignatureStatuses sig :: calls)

/-- The text of the error of service.go line 220. -/
def simulationError (err : String) (logs : List String) : String :=
  "simulation error: " ++ err ++ "\nlogs:\n" ++ "\n".intercalate logs

/-- The private-key getter passed to `tx.Sign` (service.go line 204). -/
def walletKeyGetter (lib : Lib) (s : Service) (key : PublicKey) : Option (List Nat) :=
  if key = lib.publicKey s.wallet then some s.wallet else none

/-- The method `Service.Claim` (service.go lines 152-251): the returned value or error
text, and the calls made on the RPC collaborator, in order. -/
def Claim (lib : Lib) (rpc : Rpc) (s : Service) (opts : ClaimOptions) :
    Except String String × List RpcCall :=
  let c0 := [RpcCall.getLatestBlockhash s.cfg.rpc.commitment]
  match rpc.getLatestBlockhash s.cfg.rpc.commitment with
  | .error e => (.error ("getLatestBlockhash: " ++ e), c0)
  | .ok blockhash =>
    let (ixs, built) := buildInstructions lib rpc s
    let c1 := c0 ++ built
    match lib.newTransaction ixs blockhash (lib.publicKey s.wallet) with
    | .error e => (.error ("new tx: " ++ e), c1)
    | .ok tx0 =>
      match lib.sign tx0 (walletKeyGetter lib s) with
      | .error e => (.error ("sign: " ++ e), c1)
      | .ok tx =>
        let c2 := c1 ++ [RpcCall.simulateTransaction tx]
        match rpc.simulateTransaction tx with
        | .error e => (.error ("simulate: " ++ e), c2)
        | .ok sim =>
          match sim.err with
          | some err => (.error (simulationError err sim.logs), c2)
          | none =>
            if opts.simulateOnly then (.ok "simulation OK", c2)
            else
              let c3 := c2 ++ [RpcCall.sendTransaction tx]
              match rpc.sendTransaction tx
                  { skipPreflight := false, preflightCommitment := s.cfg.rpc.commitment,
                    maxRetries := (s.cfg.maxRetries % 18446744073709551616).toNat } with
              | .error e => (.error ("send: " ++ e), c3)
              | .ok sig =>
                let (out, polls) := confirmLoop sig rpc.signatureStatuses
                (.ok out, c3 ++ polls)

end ClaimService

/-! ## `internal/wallet/wallet.go` -/

namespace Wallet

/-- The struct `config.WalletConfig`. -/
structure WalletConfig where
  keypairPath : String
  secretKeyB58 : String
deriving DecidableEq, Repr

/-- The library functions and the environment read by `Load`. -/
structure Env where
  /-- The call `base58.Decode`. -/
  base58Decode : String → Except String (List Nat)
  /-- The call `os.ExpandEnv`. -/
  expandEnv : String → String
  /-- The call `os.Getenv`. -/
  getenv : String → String
  /-- The call `ioutil.ReadFile`. -/
  readFile : String → Except String String
  /-- The call `json.Unmarshal` into a `[]byte`. -/
  jsonUnmarshalBytes : String → Except String (List Nat)

/-- The constant `ed25519.PrivateKeySize`. -/
def privateKeySize : Nat := 64

/-- The function `expandHome` (wallet.go lines 45-51). -/
def expandHome (env : Env) (p : String) : String :=
  match p.data with
  | [] => p
  | c :: rest =>
    if c = '~' then
      match rest with
      | [] => env.getenv "HOME"
      | c1 :: _ => if c1 = '/' then env.getenv "HOME" ++ String.mk rest else p
    else p

/-- The text of the error of wallet.go line 23. -/
def errSecretLength (l : Nat) : String :=
  "secret_key_b58 has " ++ toString l ++ " bytes; want " ++ toString privateKeySize

/-- The text of the error of wallet.go line 38. -/
def errKeypairLength (l : Nat) : String :=
  "keypair file has " ++ toString l ++ " bytes; want " ++ toString privateKeySize

/-- The text of the error of wallet.go line 42. -/
def errNoWallet : String := "no wallet configured: set keypair_path or SECRET_KEY_B58"

/-- The function `Load` (wallet.go lines 16-43). -/
def Load (env : Env) (c : WalletConfig) : Except String (List Nat) :=
  if c.secretKeyB58 ≠ "" then
    match env.base58Decode c.secretKeyB58 with
    | .error e => .error ("decode base58: " ++ e)
    | .ok bytes =>
      if bytes.length ≠ privateKeySize then .error (errSecretLength bytes.length)
      else .ok bytes
  else if c.keypairPath ≠ "" then
    let path := expandHome env (env.expandEnv c.keypairPath)
    match env.readFile path with
    | .error e => .error e
    | .ok b =>
      match env.jsonUnmarshalBytes b with
      | .error e => .error ("parse keypair file: " ++ e)
      | .ok arr =>
        if arr.length ≠ privateKeySize then .error (errKeypairLength arr.length)
        else .ok arr
  else .error errNoWallet

end Wallet

/-! ## Vocabulary of the statements -/

namespace ClaimService

/-- The calls that precede the simulation in an attempt. -/
def preamble (lib : Lib) (rpc : Rpc) (s : Service) : List RpcCall :=
  RpcCall.getLatestBlockhash s.cfg.rpc.commitment :: (buildInstructions lib rpc s).2

/-- The transaction `tx` is the one `Claim` assembles and signs for the service: built by
`solana.NewTransaction` from the instruction list of `buildInstructions`, the fetched
blockhash and the wallet as payer, then signed. -/
def Assembled (lib : Lib) (rpc : Rpc) (s : Service) (tx : Transaction) : Prop :=
  ∃ blockhash tx0, rpc.getLatestBlockhash s.cfg.rpc.commitment = .ok blockhash ∧
    lib.newTransaction (buildInstructions lib rpc s).1 blockhash (lib.publicKey s.wallet)
      = .ok tx0 ∧
    lib.sign tx0 (walletKeyGetter lib s) = .ok tx

/-- The inner instructions of the metadata, in the order the two nested loops of
`learnFromReference` visit them. -/
def innerInstructionList (m : TransactionMeta) : List CompiledInstruction :=
  (m.innerInstructions.map InnerInstruction.instructions).flatten

end ClaimService

/-! ## Sample inputs -/

namespace Sample

open ClaimService

/-- A claim program id. -/
def claimProgramID : PublicKey := ⟨"CLAiMwWJ9RZ7cP4ZsQkGwVYkfY4ihbqjUuzNnx3sVfyT"⟩

/-- The Token-2022 program id. -/
def token2022 : PublicKey := ⟨"TokenzQdBNbLqP5VEhdkAS6EPFLC1PHnBqCXEpPxuEb"⟩

/-- The public key of the sample wallet. -/
def walletKey : PublicKey := ⟨"WaLLetJ9RZ7cP4ZsQkGwVYkfY4ihbqjUuzNnx3sVfy11"⟩

/-- A reward mint. -/
def mintKey : PublicKey := ⟨"MintJ9RZ7cP4ZsQkGwVYkfY4ihbqjUuzNnx3sVfy1111"⟩

/-- A second mint, recorded in the token balances. -/
def balanceMint : PublicKey := ⟨"BaLJ9RZ7cP4ZsQkGwVYkfY4ihbqjUuzNnx3sVfy11111"⟩

/-- A reward vault account. -/
def vaultKey : PublicKey := ⟨"VauLtJ9RZ7cP4ZsQkGwVYkfY4ihbqjUuzNnx3sVfy111"⟩

/-- A holding-account address. -/
def ataKey : PublicKey := ⟨"HoLdJ9RZ7cP4ZsQkGwVYkfY4ihbqjUuzNnx3sVfy1111"⟩

/-- A library whose lookups index the account keys of the message; the first key is a
writable signer, the next two are writable. -/
def lib : Lib where
  publicKeyFromBase58 := fun t =>
    if t = "" then (PublicKey.zero, some "decode: zero length string") else (⟨t⟩, none)
  trimSpace := fun t => t.trim
  signatureFromBase58 := fun t =>
    if t = "" then .error "zero length string" else .ok t
  decodeTransaction := fun _ => .error "unexpected end of data"
  numLookups := fun msg =>
    (msg.addressTableLookups.map
      (fun l => l.writableIndexes.length + l.readonlyIndexes.length)).sum
  getTableIDs := fun msg => msg.addressTableLookups.map (fun l => l.accountKey)
  decodeAddressLookupTableState := fun _ => .ok []
  setAddressTables := fun msg _ => .ok msg
  resolveLookups := fun msg => .ok msg
  resolveInstructionAccounts := fun ci msg =>
    .ok (ci.accounts.filterMap (fun i =>
      (msg.accountKeys[i]?).map (fun k =>
        { publicKey := k, isSigner := decide (i = 0), isWritable := decide (i < 3) })))
  program := fun msg i =>
    match msg.accountKeys[i]? with
    | some k => (k, none)
    | none => (PublicKey.zero, some "programID index not found")
  account := fun msg i =>
    match msg.accountKeys[i]? with
    | some k => .ok k
    | none => .error "account index not found"
  publicKey := fun _ => walletKey
  findProgramAddress := fun _ _ => (ataKey, 255)
  newTransaction := fun ixs blockhash payer =>
    .ok { instructions := ixs, recentBlockhash := blockhash, feePayer := payer,
          signatures := [] }
  sign := fun tx getter =>
    match getter tx.feePayer with
    | some _ => .ok { tx with signatures := ["5igned"] }
    | none => .error "signer key not found"

/-- A configuration with no token-program override and both fee knobs set. -/
def cfg : Config where
  rpc := { commitment := "confirmed" }
  claim := { referenceSignature := "5ig", programID := claimProgramID.b58,
             tokenProgramID := "" }
  fees := { priorityMicrolamports := 1000, computeUnitLimit := 200000 }
  maxRetries := 3

/-- The bytes of the sample private key. -/
def walletBytes : List Nat := List.replicate 64 7

/-- A reference message: the claim instruction with payload `0xAABBCC` and three
accounts, then a token-program instruction. -/
def msg : Message where
  versioned := false
  accountKeys := [walletKey, vaultKey, mintKey, claimProgramID, token2022]
  instructions :=
    [ { programIDIndex := 3, accounts := [0, 1, 2], data := [0xAA, 0xBB, 0xCC] },
      { programIDIndex := 4, accounts := [1, 0], data := [3] } ]
  addressTableLookups := []

/-- A reference message whose only top-level instruction is the claim instruction. -/
def msgClaimOnly : Message where
  versioned := false
  accountKeys := [walletKey, vaultKey, mintKey, claimProgramID, token2022]
  instructions :=
    [ { programIDIndex := 3, accounts := [0, 1, 2], data := [0xAA, 0xBB, 0xCC] } ]
  addressTableLookups := []

/-- A reference message without any instruction of the claim program: the program only
appears in the inner instructions of `txMeta`. -/
def msgNoClaim : Message where
  versioned := false
  accountKeys := [walletKey, vaultKey, mintKey, claimProgramID, token2022]
  instructions := [ { programIDIndex := 4, accounts := [1, 0], data := [3] } ]
  addressTableLookups := []

/-- Metadata with one inner token-program instruction on the mint, one inner instruction
of the claim program, and one post token balance. -/
def txMeta : TransactionMeta where
  innerInstructions :=
    [ { index := 0,
        instructions :=
          [ { programIDIndex := 3, accounts := [0], data := [9] },
            { programIDIndex := 4, accounts := [2, 1], data := [7] } ] } ]
  postTokenBalances := [ { accountIndex := 1, mint := balanceMint } ]

/-- The template learned from `msg`, with the mint known. -/
def service : Service where
  wallet := walletBytes
  cfg := cfg
  claimProgram := claimProgramID
  claimIxData := [0xAA, 0xBB, 0xCC]
  claimIxAccts :=
    [ { publicKey := walletKey, isSigner := true, isWritable := true },
      { publicKey := vaultKey, isSigner := false, isWritable := true },
      { publicKey := mintKey, isSigner := false, isWritable := true } ]
  tokenProgram := token2022
  mint := mintKey

/-- The same template with the reward mint unset. -/
def serviceNoMint : Service := { service with mint := PublicKey.zero }

/-- An RPC collaborator: the holding account is absent, the simulation succeeds, the
transaction is sent and confirmed at the second poll. -/
def rpc : Rpc where
  getTransaction := fun _ => .error "not found"
  getAccountInfo := fun _ => (none, some "not found")
  getLatestBlockhash := fun _ => .ok "B1ockhash"
  simulateTransaction := fun _ => .ok { err := none, logs := ["Program log: claimed"] }
  sendTransaction := fun _ _ => .ok "5ignature"
  signatureStatuses :=
    [ (some { value := [none] }, none),
      (some { value := [some { confirmationStatus := "confirmed" }] }, none) ]

/-- An RPC collaborator whose simulation reports an error with two log lines. -/
def rpcSimFails : Rpc :=
  { rpc with
    simulateTransaction := fun _ =>
      .ok { err := some "InstructionError", logs := ["Program log: a", "Program log: b"] } }

/-- An RPC collaborator reporting the holding account present with a balance. -/
def rpcFunded : Rpc :=
  { rpc with
    getAccountInfo := fun _ => (some { value := some { lamports := 2039280, data := [] } }, none) }

/-- The transaction assembled from the sample service against `rpc`, before signing. -/
def unsignedTx : Transaction where
  instructions := (buildInstructions lib rpc service).1
  recentBlockhash := "B1ockhash"
  feePayer := walletKey
  signatures := []

/-- The signed sample transaction. -/
def signedTx : Transaction := { unsignedTx with signatures := ["5igned"] }

/-- The Tokenkeg program id. -/
def tokenkeg : PublicKey := ⟨"TokenkegQfeZyiNwAJbNbGKPFXCWuBvf9Ss623VQ5DA"⟩

/-- The sample configuration with the Tokenkeg program as token-program override. -/
def cfgOverride : Config :=
  { cfg with claim := { cfg.claim with tokenProgramID := tokenkeg.b58 } }

/-- The sample configuration whose token-program override is the text of the all-zero
key, which `solana.PublicKeyFromBase58` accepts (it is the System Program id). -/
def cfgZeroOverride : Config :=
  { cfg with claim := { cfg.claim with tokenProgramID := "11111111111111111111111111111111" } }

/-- An environment for `wallet.Load`: one base58 secret of 64 bytes, one of 32 bytes, and
a keypair file in the home directory. -/
def walletEnv : Wallet.Env where
  base58Decode := fun t =>
    if t = "5ecret" then .ok (List.replicate 64 7)
    else if t = "5hort" then .ok (List.replicate 32 7)
    else .error "invalid base58 digit"
  expandEnv := fun p => p
  getenv := fun _ => "/home/claimer"
  readFile := fun p =>
    if p = "/home/claimer/id.json" then .ok "[9, ...]" else .error "no such file or directory"
  jsonUnmarshalBytes := fun raw =>
    if raw = "[9, ...]" then .ok (List.replicate 64 9) else .error "invalid character"

end Sample

/-! ## Theorems: the jittered scheduler -/

namespace Schedule

/-- Rounding to the nearest integer does not go below the floor. -/
theorem roundHalfEven_floor_le (q : ℚ) : ⌊q⌋ ≤ roundHalfEven q := by
  unfold roundHalfEven
  split_ifs <;> omega

/-- Rounding to the nearest integer does not exceed the floor plus one. -/
theorem roundHalfEven_le_floor_succ (q : ℚ) : roundHalfEven q ≤ ⌊q⌋ + 1 := by
  unfold roundHalfEven
  split_ifs <;> omega

/-- An integer rounds to itself. -/
theorem roundHalfEven_intCast (n : ℤ) : roundHalfEven (n : ℚ) = n := by
  unfold roundHalfEven
  simp

/-- Rounding to the nearest integer is monotone. -/
theorem roundHalfEven_mono {q q' : ℚ} (h : q ≤ q') : roundHalfEven q ≤ roundHalfEven q' := by
  rcases lt_or_eq_of_le (Int.floor_mono h) with hlt | heq
  · exact le_trans (roundHalfEven_le_floor_succ q) (le_trans hlt (roundHalfEven_floor_le q'))
  · unfold roundHalfEven
    rw [← heq]
    have hfrac : q - ⌊q⌋ ≤ q' - ⌊q⌋ := by linarith
    split_ifs <;> first | omega | (exfalso; linarith)

/-- Rounding to the nearest integer loses at most one half. -/
theorem roundHalfEven_sub_le (q : ℚ) : q - 1 / 2 ≤ (roundHalfEven q : ℚ) := by
  have h1 := Int.floor_le q
  have h2 := Int.lt_floor_add_one q
  unfold roundHalfEven
  split_ifs <;> push_cast <;> linarith

/-- Rounding to the nearest integer adds at most one half. -/
theorem roundHalfEven_le_add (q : ℚ) : (roundHalfEven q : ℚ) ≤ q + 1 / 2 := by
  have h1 := Int.floor_le q
  have h2 := Int.lt_floor_add_one q
  unfold roundHalfEven
  split_ifs <;> push_cast <;> linarith

/-- A value strictly within one half of an integer rounds to it. -/
theorem roundHalfEven_eq_of_lt (q : ℚ) (n : ℤ) (h1 : (n : ℚ) - 1 / 2 < q)
    (h2 : q < (n : ℚ) + 1 / 2) : roundHalfEven q = n := by
  have hs := roundHalfEven_sub_le q
  have hl := roundHalfEven_le_add q
  have ha : ((roundHalfEven q : ℤ) : ℚ) < ((n + 1 : ℤ) : ℚ) := by push_cast; linarith
  have hb : (((n - 1 : ℤ)) : ℚ) < ((roundHalfEven q : ℤ) : ℚ) := by push_cast; linarith
  have ha' : roundHalfEven q < n + 1 := by exact_mod_cast ha
  have hb' : n - 1 < roundHalfEven q := by exact_mod_cast hb
  omega

/-- A tie above an odd integer rounds up. -/
theorem roundHalfEven_tie_odd (q : ℚ) (n : ℤ) (h : q = (n : ℚ) + 1 / 2) (hn : n % 2 = 1) :
    roundHalfEven q = n + 1 := by
  have hf : ⌊q⌋ = n := by
    rw [Int.floor_eq_iff]
    constructor <;> rw [h] <;> linarith
  unfold roundHalfEven
  rw [hf, h]
  norm_num
  omega

/-- A tie above an even integer rounds down. -/
theorem roundHalfEven_tie_even (q : ℚ) (n : ℤ) (h : q = (n : ℚ) + 1 / 2) (hn : n % 2 = 0) :
    roundHalfEven q = n := by
  have hf : ⌊q⌋ = n := by
    rw [Int.floor_eq_iff]
    constructor <;> rw [h] <;> linarith
  unfold roundHalfEven
  rw [hf, h]
  norm_num
  omega

/-- A non-negative value rounds to a non-negative integer. -/
theorem roundHalfEven_nonneg {q : ℚ} (h : 0 ≤ q) : 0 ≤ roundHalfEven q := by
  have := roundHalfEven_mono h
  rwa [show ((0 : ℚ)) = ((0 : ℤ) : ℚ) from by norm_num, roundHalfEven_intCast] at this

/-- The spacing of a binade is positive. -/
theorem float64Ulp_pos (x : ℚ) : 0 < float64Ulp x := by
  unfold float64Ulp
  positivity

/-- A value lies below the upper end of its binade. -/
theorem lt_two_zpow_exponent_succ (x : ℚ) : x < 2 ^ (float64Exponent x + 1) := by
  have h1 : x < ((2 : ℕ) : ℚ) ^ (Int.log 2 x + 1) := Int.lt_zpow_succ_log_self (by norm_num) x
  have h2 : ((2 : ℕ) : ℚ) ^ (Int.log 2 x + 1) ≤ ((2 : ℕ) : ℚ) ^ (float64Exponent x + 1) := by
    apply zpow_le_zpow_right₀ (by norm_num)
    unfold float64Exponent
    omega
  have := lt_of_lt_of_le h1 h2
  simpa using this

/-- A positive value of the normal range lies above the lower end of its binade. -/
theorem two_zpow_exponent_le {x : ℚ} (hx : 0 < x) (h : -1022 ≤ Int.log 2 x) :
    2 ^ float64Exponent x ≤ x := by
  have h1 : ((2 : ℕ) : ℚ) ^ Int.log 2 x ≤ x := Int.zpow_log_le_self (by norm_num) hx
  have h2 : float64Exponent x = Int.log 2 x := by
    unfold float64Exponent
    omega
  rw [h2]
  simpa using h1

/-- The binade exponent is monotone on positive values. -/
theorem float64Exponent_mono {x y : ℚ} (hx : 0 < x) (h : x ≤ y) :
    float64Exponent x ≤ float64Exponent y := by
  have := Int.log_mono_right (b := 2) hx h
  unfold float64Exponent
  omega

/-- The binade exponent of a value enclosed by two consecutive powers of two. -/
theorem float64Exponent_eq {x : ℚ} {e : ℤ} (h1 : 2 ^ e ≤ x) (h2 : x < 2 ^ (e + 1))
    (he : -1022 ≤ e) : float64Exponent x = e := by
  have hx : 0 < x := lt_of_lt_of_le (by positivity) h1
  have ha : e ≤ Int.log 2 x := by
    rw [← Int.zpow_le_iff_le_log (by norm_num) hx]
    simpa using h1
  have hb : Int.log 2 x < e + 1 := by
    rw [← Int.lt_zpow_iff_log_lt (by norm_num) hx]
    simpa using h2
  unfold float64Exponent
  omega

/-- The rounding of a value whose binade is known. -/
theorem roundNonneg_eq_of_exponent {x : ℚ} {e : ℤ} (h1 : 2 ^ e ≤ x) (h2 : x < 2 ^ (e + 1))
    (he : -1022 ≤ e) :
    roundNonneg x = roundHalfEven (x / 2 ^ (e - 52)) * 2 ^ (e - 52) := by
  unfold roundNonneg float64Ulp
  rw [float64Exponent_eq h1 h2 he]

/-- Zero rounds to zero. -/
theorem roundNonneg_zero : roundNonneg 0 = 0 := by
  unfold roundNonneg
  rw [zero_div, show ((0 : ℚ)) = ((0 : ℤ) : ℚ) from by norm_num, roundHalfEven_intCast]
  simp

/-- A non-negative value rounds to a non-negative float64. -/
theorem roundNonneg_nonneg {x : ℚ} (hx : 0 ≤ x) : 0 ≤ roundNonneg x := by
  unfold roundNonneg
  have hu := float64Ulp_pos x
  have : 0 ≤ roundHalfEven (x / float64Ulp x) := roundHalfEven_nonneg (div_nonneg hx hu.le)
  have h2 : (0 : ℚ) ≤ (roundHalfEven (x / float64Ulp x) : ℚ) := by exact_mod_cast this
  exact mul_nonneg h2 hu.le

/-- Rounding does not leave the binade upwards. -/
theorem roundNonneg_le_two_zpow (x : ℚ) : roundNonneg x ≤ 2 ^ (float64Exponent x + 1) := by
  unfold roundNonneg
  have hu := float64Ulp_pos x
  have hlt := lt_two_zpow_exponent_succ x
  have hq : x / float64Ulp x ≤ ((2 ^ 53 : ℤ) : ℚ) := by
    rw [div_le_iff₀ hu]
    have : ((2 ^ 53 : ℤ) : ℚ) * float64Ulp x = 2 ^ (float64Exponent x + 1) := by
      unfold float64Ulp
      rw [show float64Exponent x + 1 = 53 + (float64Exponent x - 52) by ring,
        zpow_add₀ (by norm_num)]
      norm_num
    rw [this]
    exact hlt.le
  have hr := roundHalfEven_mono hq
  rw [roundHalfEven_intCast] at hr
  have hr' : (roundHalfEven (x / float64Ulp x) : ℚ) ≤ ((2 ^ 53 : ℤ) : ℚ) := by exact_mod_cast hr
  have := mul_le_mul_of_nonneg_right hr' hu.le
  refine le_trans this (le_of_eq ?_)
  unfold float64Ulp
  rw [show float64Exponent x + 1 = 53 + (float64Exponent x - 52) by ring,
    zpow_add₀ (by norm_num)]
  norm_num

/-- Rounding does not leave a normal binade downwards. -/
theorem two_zpow_le_roundNonneg {x : ℚ} (hx : 0 < x) (h : -1022 ≤ Int.log 2 x) :
    2 ^ float64Exponent x ≤ roundNonneg x := by
  unfold roundNonneg
  have hu := float64Ulp_pos x
  have hle := two_zpow_exponent_le hx h
  have hmul : ((2 ^ 52 : ℤ) : ℚ) * float64Ulp x = 2 ^ float64Exponent x := by
    unfold float64Ulp
    rw [show float64Exponent x = 52 + (float64Exponent x - 52) by ring,
      zpow_add₀ (by norm_num)]
    norm_num
  have hq : ((2 ^ 52 : ℤ) : ℚ) ≤ x / float64Ulp x := by
    rw [le_div_iff₀ hu, hmul]
    exact hle
  have hr := roundHalfEven_mono hq
  rw [roundHalfEven_intCast] at hr
  have hr' : ((2 ^ 52 : ℤ) : ℚ) ≤ (roundHalfEven (x / float64Ulp x) : ℚ) := by exact_mod_cast hr
  have := mul_le_mul_of_nonneg_right hr' hu.le
  rw [hmul] at this
  exact this

/-- Rounding of non-negative values is monotone. -/
theorem roundNonneg_mono {x y : ℚ} (hx : 0 ≤ x) (h : x ≤ y) : roundNonneg x ≤ roundNonneg y := by
  rcases eq_or_lt_of_le hx with h0 | hpos
  · rw [← h0, roundNonneg_zero]
    exact roundNonneg_nonneg (le_trans hx h)
  · have hy : 0 < y := lt_of_lt_of_le hpos h
    rcases eq_or_lt_of_le (float64Exponent_mono hpos h) with heq | hlt
    · unfold roundNonneg float64Ulp
      rw [heq]
      have hu : (0 : ℚ) < 2 ^ (float64Exponent y - 52) := by positivity
      have hq : x / 2 ^ (float64Exponent y - 52) ≤ y / 2 ^ (float64Exponent y - 52) :=
        div_le_div_of_nonneg_right h hu.le
      have hr := roundHalfEven_mono hq
      have hr' : (roundHalfEven (x / 2 ^ (float64Exponent y - 52)) : ℚ) ≤
          (roundHalfEven (y / 2 ^ (float64Exponent y - 52)) : ℚ) := by exact_mod_cast hr
      exact mul_le_mul_of_nonneg_right hr' hu.le
    · have hlog : -1022 ≤ Int.log 2 y := by
        unfold float64Exponent at hlt
        omega
      refine le_trans (roundNonneg_le_two_zpow x) (le_trans ?_ (two_zpow_le_roundNonneg hy hlog))
      apply zpow_le_zpow_right₀ (by norm_num)
      omega

/-- A value `m * 2^k` with a significand below 2^53 rounds to itself. -/
theorem roundNonneg_of_rep (m : ℕ) (k : ℤ) (hm : m < 2 ^ 53) (hk : -1074 ≤ k) :
    roundNonneg ((m : ℚ) * 2 ^ k) = (m : ℚ) * 2 ^ k := by
  rcases Nat.eq_zero_or_pos m with h0 | hpos
  · subst h0
    simp [roundNonneg_zero]
  · have hx : (0 : ℚ) < (m : ℚ) * 2 ^ k := by positivity
    have hlt : (m : ℚ) * 2 ^ k < ((2 : ℕ) : ℚ) ^ (53 + k) := by
      rw [zpow_add₀ (by norm_num)]
      have : (m : ℚ) < ((2 : ℕ) : ℚ) ^ (53 : ℤ) := by
        have h53 : (m : ℚ) < ((2 ^ 53 : ℕ) : ℚ) := by exact_mod_cast hm
        have he : ((2 : ℕ) : ℚ) ^ (53 : ℤ) = ((2 ^ 53 : ℕ) : ℚ) := by norm_num
        rw [he]
        exact h53
      have h2 : (0 : ℚ) < 2 ^ k := by positivity
      have := mul_lt_mul_of_pos_right this h2
      simpa using this
    have hlog : Int.log 2 ((m : ℚ) * 2 ^ k) < 53 + k :=
      (Int.lt_zpow_iff_log_lt (by norm_num) hx).mp hlt
    have hexp : float64Exponent ((m : ℚ) * 2 ^ k) - 52 ≤ k := by
      unfold float64Exponent
      omega
    obtain ⟨n, hn⟩ : ∃ n : ℕ, k = float64Exponent ((m : ℚ) * 2 ^ k) - 52 + n :=
      ⟨(k - (float64Exponent ((m : ℚ) * 2 ^ k) - 52)).toNat, by omega⟩
    unfold roundNonneg float64Ulp
    generalize float64Exponent ((m : ℚ) * 2 ^ k) - 52 = u at hn
    subst hn
    have hq : (m : ℚ) * 2 ^ (u + (n : ℤ)) / 2 ^ u = ((m * 2 ^ n : ℤ) : ℚ) := by
      rw [zpow_add₀ (by norm_num), zpow_natCast]
      have hu : (2 : ℚ) ^ u ≠ 0 := by positivity
      field_simp
      ring
    rw [hq, roundHalfEven_intCast]
    rw [zpow_add₀ (by norm_num), zpow_natCast]
    push_cast
    ring

/-- On non-negative values the rounding is `roundNonneg`. -/
theorem roundToFloat64_of_nonneg {x : ℚ} (hx : 0 ≤ x) : roundToFloat64 x = roundNonneg x := by
  unfold roundToFloat64
  rw [if_pos hx]

/-- Rounding commutes with negation. -/
theorem roundToFloat64_neg (x : ℚ) : roundToFloat64 (-x) = -roundToFloat64 x := by
  rcases lt_trichotomy x 0 with h | h | h
  · unfold roundToFloat64
    rw [if_pos (by linarith), if_neg (by linarith)]
    simp
  · subst h
    simp [roundToFloat64, roundNonneg_zero]
  · unfold roundToFloat64
    rw [if_neg (by linarith), if_pos (by linarith)]
    simp

/-- A non-negative value rounds to a non-negative float64. -/
theorem roundToFloat64_nonneg {x : ℚ} (hx : 0 ≤ x) : 0 ≤ roundToFloat64 x := by
  rw [roundToFloat64_of_nonneg hx]
  exact roundNonneg_nonneg hx

/-- A non-positive value rounds to a non-positive float64. -/
theorem roundToFloat64_nonpos {x : ℚ} (hx : x ≤ 0) : roundToFloat64 x ≤ 0 := by
  have := roundToFloat64_nonneg (x := -x) (by linarith)
  rw [roundToFloat64_neg] at this
  linarith

/-- Rounding to float64 is monotone. -/
theorem roundToFloat64_mono {x y : ℚ} (h : x ≤ y) : roundToFloat64 x ≤ roundToFloat64 y := by
  rcases le_or_lt 0 x with hx | hx
  · rw [roundToFloat64_of_nonneg hx, roundToFloat64_of_nonneg (le_trans hx h)]
    exact roundNonneg_mono hx h
  · rcases le_or_lt 0 y with hy | hy
    · exact le_trans (roundToFloat64_nonpos hx.le) (roundToFloat64_nonneg hy)
    · have h1 : roundToFloat64 (-y) ≤ roundToFloat64 (-x) := by
        rw [roundToFloat64_of_nonneg (by linarith), roundToFloat64_of_nonneg (by linarith)]
        exact roundNonneg_mono (by linarith) (by linarith)
      rw [roundToFloat64_neg, roundToFloat64_neg] at h1
      linarith

/-- A value `m * 2^k` with a significand below 2^53 is a float64. -/
theorem roundToFloat64_of_rep (m : ℕ) (k : ℤ) (hm : m < 2 ^ 53) (hk : -1074 ≤ k) :
    roundToFloat64 ((m : ℚ) * 2 ^ k) = (m : ℚ) * 2 ^ k := by
  rw [roundToFloat64_of_nonneg (by positivity)]
  exact roundNonneg_of_rep m k hm hk

/-- A natural number below 2^53 is a float64. -/
theorem roundToFloat64_natCast (m : ℕ) (hm : m < 2 ^ 53) : roundToFloat64 (m : ℚ) = m := by
  have := roundToFloat64_of_rep m 0 hm (by norm_num)
  simpa using this

/-- Zero is a float64. -/
theorem roundToFloat64_zero : roundToFloat64 0 = 0 := by
  have := roundToFloat64_natCast 0 (by norm_num)
  simpa using this

/-- One is a float64. -/
theorem roundToFloat64_one : roundToFloat64 1 = 1 := by
  have := roundToFloat64_natCast 1 (by norm_num)
  simpa using this

/-- Two is a float64. -/
theorem roundToFloat64_two : roundToFloat64 2 = 2 := by
  have := roundToFloat64_natCast 2 (by norm_num)
  simpa using this

/-- Minus one is a float64. -/
theorem roundToFloat64_neg_one : roundToFloat64 (-1) = -1 := by
  rw [roundToFloat64_neg, roundToFloat64_one]

/-- The factor `1 + j` lies between the rounded values of `1 - J` and `1 + J`. -/
theorem jitterFactor_window (fma : Bool) (jitter r : ℚ) (hJ0 : 0 ≤ jitter)
    (hJf : roundToFloat64 jitter = jitter) (hr0 : 0 ≤ r) (hr1 : r < 1) :
    roundToFloat64 (1 - jitter) ≤ jitterFactor fma jitter r ∧
      jitterFactor fma jitter r ≤ roundToFloat64 (1 + jitter) := by
  have h2r0 : 0 ≤ roundToFloat64 (r * 2) := roundToFloat64_nonneg (by linarith)
  have h2r2 : roundToFloat64 (r * 2) ≤ 2 := by
    have := roundToFloat64_mono (show r * 2 ≤ 2 by linarith)
    rwa [roundToFloat64_two] at this
  have ht0 : -1 ≤ roundToFloat64 (roundToFloat64 (r * 2) - 1) := by
    have := roundToFloat64_mono (show (-1 : ℚ) ≤ roundToFloat64 (r * 2) - 1 by linarith)
    rwa [roundToFloat64_neg_one] at this
  have ht1 : roundToFloat64 (roundToFloat64 (r * 2) - 1) ≤ 1 := by
    have := roundToFloat64_mono (show roundToFloat64 (r * 2) - 1 ≤ 1 by linarith)
    rwa [roundToFloat64_one] at this
  have hp0 : -jitter ≤ roundToFloat64 (roundToFloat64 (r * 2) - 1) * jitter := by nlinarith
  have hp1 : roundToFloat64 (roundToFloat64 (r * 2) - 1) * jitter ≤ jitter := by nlinarith
  have hnegJ : roundToFloat64 (-jitter) = -jitter := by rw [roundToFloat64_neg, hJf]
  unfold jitterFactor
  cases fma
  · simp only [Bool.false_eq_true, if_false]
    have hj0 := roundToFloat64_mono hp0
    have hj1 := roundToFloat64_mono hp1
    rw [hnegJ] at hj0
    rw [hJf] at hj1
    exact ⟨roundToFloat64_mono (by linarith), roundToFloat64_mono (by linarith)⟩
  · simp only [if_true]
    exact ⟨roundToFloat64_mono (by linarith), roundToFloat64_mono (by linarith)⟩

/-- The delay of a cycle is never below the one-second floor. -/
theorem second_le_loopDelay (fma : Bool) (ovf : ℚ → Int) (base : Int) (jitter r : ℚ) :
    second ≤ loopDelay fma ovf base jitter r := by
  unfold loopDelay
  simp only
  split_ifs with h
  · exact le_refl _
  · exact not_lt.mp h

/-- The conversion of a non-negative value up to 2^62 is its floor. -/
theorem truncToDuration_of_range (ovf : ℚ → Int) {x : ℚ} (h0 : 0 ≤ x)
    (h1 : x ≤ 4611686018427387904) : truncToDuration ovf x = ⌊x⌋ := by
  have hf0 : 0 ≤ ⌊x⌋ := Int.floor_nonneg.mpr h0
  have hf1 : ⌊x⌋ ≤ 4611686018427387904 := by
    have : ⌊x⌋ ≤ ⌊((4611686018427387904 : ℤ) : ℚ)⌋ := Int.floor_mono (by exact_mod_cast h1)
    rwa [Int.floor_intCast] at this
  unfold truncToDuration
  simp only [h0, if_true]
  rw [if_pos]
  constructor <;> omega

/-- The conversion of a non-positive value down to -2^62 is not positive. -/
theorem truncToDuration_of_nonpos_range (ovf : ℚ → Int) {x : ℚ} (h0 : x ≤ 0)
    (h1 : -4611686018427387904 ≤ x) : truncToDuration ovf x ≤ 0 := by
  have hc0 : ⌈x⌉ ≤ 0 := Int.ceil_le.mpr (by simpa using h0)
  have hc1 : -4611686018427387904 ≤ ⌈x⌉ := by
    have h2 : ((-4611686018427387904 : ℤ) : ℚ) ≤ ((⌈x⌉ : ℤ) : ℚ) := by
      push_cast
      exact le_trans h1 (Int.le_ceil x)
    exact_mod_cast h2
  unfold truncToDuration
  rcases eq_or_lt_of_le h0 with hx | hx
  · subst hx
    simp
  · simp only [not_le.mpr hx, if_false]
    rw [if_pos]
    · exact hc0
    · constructor <;> omega

/-- The rounded product for a base interval between 0 and 2^61 ns lies between the rounded
products for the factors `1 - J` and `1 + J`, inside the range of a duration. -/
theorem product_window (fma : Bool) (base : Int) (jitter r : ℚ)
    (hJ0 : 0 ≤ jitter) (hJ1 : jitter < 1) (hJf : roundToFloat64 jitter = jitter)
    (hr0 : 0 ≤ r) (hr1 : r < 1) (hB0 : 0 ≤ base) (hB1 : base ≤ 2 ^ 61) :
    0 ≤ roundToFloat64 (roundToFloat64 (base : ℚ) * roundToFloat64 (1 - jitter)) ∧
      roundToFloat64 (roundToFloat64 (base : ℚ) * roundToFloat64 (1 - jitter)) ≤
        roundToFloat64 (roundToFloat64 (base : ℚ) * jitterFactor fma jitter r) ∧
      roundToFloat64 (roundToFloat64 (base : ℚ) * jitterFactor fma jitter r) ≤
        roundToFloat64 (roundToFloat64 (base : ℚ) * roundToFloat64 (1 + jitter)) ∧
      roundToFloat64 (roundToFloat64 (base : ℚ) * roundToFloat64 (1 + jitter)) ≤
        4611686018427387904 := by
  obtain ⟨hlo, hhi⟩ := jitterFactor_window fma jitter r hJ0 hJf hr0 hr1
  have hB0q : (0 : ℚ) ≤ (base : ℚ) := by exact_mod_cast hB0
  have hB1q : (base : ℚ) ≤ 2305843009213693952 := by
    have : (base : ℚ) ≤ ((2 ^ 61 : ℤ) : ℚ) := by exact_mod_cast hB1
    simpa using this
  have hBf0 : 0 ≤ roundToFloat64 (base : ℚ) := roundToFloat64_nonneg hB0q
  have hpow61 : roundToFloat64 2305843009213693952 = 2305843009213693952 := by
    have := roundToFloat64_of_rep 1 61 (by norm_num) (by norm_num)
    norm_num at this
    exact this
  have hpow62 : roundToFloat64 4611686018427387904 = 4611686018427387904 := by
    have := roundToFloat64_of_rep 1 62 (by norm_num) (by norm_num)
    norm_num at this
    exact this
  have hBf1 : roundToFloat64 (base : ℚ) ≤ 2305843009213693952 := by
    have := roundToFloat64_mono hB1q
    rwa [hpow61] at this
  have hs0 : 0 ≤ roundToFloat64 (1 - jitter) := roundToFloat64_nonneg (by linarith)
  have hs2 : roundToFloat64 (1 + jitter) ≤ 2 := by
    have := roundToFloat64_mono (show 1 + jitter ≤ 2 by linarith)
    rwa [roundToFloat64_two] at this
  refine ⟨roundToFloat64_nonneg (mul_nonneg hBf0 hs0),
    roundToFloat64_mono (mul_le_mul_of_nonneg_left hlo hBf0),
    roundToFloat64_mono (mul_le_mul_of_nonneg_left hhi hBf0), ?_⟩
  have hprod : roundToFloat64 (base : ℚ) * roundToFloat64 (1 + jitter) ≤
      4611686018427387904 := by
    have h1 : roundToFloat64 (base : ℚ) * roundToFloat64 (1 + jitter) ≤
        roundToFloat64 (base : ℚ) * 2 := mul_le_mul_of_nonneg_left hs2 hBf0
    linarith
  have := roundToFloat64_mono hprod
  rwa [hpow62] at this

/-- For a base interval between 0 and 2^61 ns the delay lies between the delays the same
conversion gives for the extreme jitters `-J` and `+J`, each raised to the floor. -/
theorem loopDelay_window (fma : Bool) (ovf : ℚ → Int) (base : Int) (jitter r : ℚ)
    (hJ0 : 0 ≤ jitter) (hJ1 : jitter < 1) (hJf : roundToFloat64 jitter = jitter)
    (hr0 : 0 ≤ r) (hr1 : r < 1) (hB0 : 0 ≤ base) (hB1 : base ≤ 2 ^ 61) :
    max second (jitteredDuration ovf base (-jitter)) ≤ loopDelay fma ovf base jitter r ∧
      loopDelay fma ovf base jitter r ≤ max second (jitteredDuration ovf base jitter) := by
  obtain ⟨h0, hlo, hhi, htop⟩ :=
    product_window fma base jitter r hJ0 hJ1 hJf hr0 hr1 hB0 hB1
  have hdlo : jitteredDuration ovf base (-jitter) =
      ⌊roundToFloat64 (roundToFloat64 (base : ℚ) * roundToFloat64 (1 - jitter))⌋ := by
    unfold jitteredDuration
    rw [← sub_eq_add_neg]
    exact truncToDuration_of_range ovf h0 (le_trans hlo (le_trans hhi htop))
  have hdhi : jitteredDuration ovf base jitter =
      ⌊roundToFloat64 (roundToFloat64 (base : ℚ) * roundToFloat64 (1 + jitter))⌋ := by
    unfold jitteredDuration
    exact truncToDuration_of_range ovf (le_trans h0 (le_trans hlo hhi)) htop
  have hd : truncToDuration ovf
      (roundToFloat64 (roundToFloat64 (base : ℚ) * jitterFactor fma jitter r)) =
      ⌊roundToFloat64 (roundToFloat64 (base : ℚ) * jitterFactor fma jitter r)⌋ :=
    truncToDuration_of_range ovf (le_trans h0 hlo) (le_trans hhi htop)
  have h1 := Int.floor_mono hlo
  have h2 := Int.floor_mono hhi
  rw [hdlo, hdhi]
  unfold loopDelay
  simp only [hd]
  constructor
  · apply max_le
    · split_ifs with h
      · exact le_refl _
      · exact not_lt.mp h
    · split_ifs with h
      · exact le_trans h1 h.le
      · exact h1
  · split_ifs with h
    · exact le_max_left _ _
    · exact le_trans h2 (le_max_right _ _)

/-- For a negative base interval down to -2^61 ns the delay is the one-second floor. -/
theorem loopDelay_of_neg (fma : Bool) (ovf : ℚ → Int) (base : Int) (jitter r : ℚ)
    (hJ0 : 0 ≤ jitter) (hJ1 : jitter < 1) (hJf : roundToFloat64 jitter = jitter)
    (hr0 : 0 ≤ r) (hr1 : r < 1) (hB0 : base < 0) (hB1 : -2 ^ 61 ≤ base) :
    loopDelay fma ovf base jitter r = second := by
  obtain ⟨hlo, hhi⟩ := jitterFactor_window fma jitter r hJ0 hJf hr0 hr1
  have hB0q : (base : ℚ) ≤ 0 := by exact_mod_cast hB0.le
  have hB1q : (-2305843009213693952 : ℚ) ≤ (base : ℚ) := by
    have : ((-2 ^ 61 : ℤ) : ℚ) ≤ (base : ℚ) := by exact_mod_cast hB1
    simpa using this
  have hpow61 : roundToFloat64 2305843009213693952 = 2305843009213693952 := by
    have := roundToFloat64_of_rep 1 61 (by norm_num) (by norm_num)
    norm_num at this
    exact this
  have hpow62 : roundToFloat64 4611686018427387904 = 4611686018427387904 := by
    have := roundToFloat64_of_rep 1 62 (by norm_num) (by norm_num)
    norm_num at this
    exact this
  have hBf0 : roundToFloat64 (base : ℚ) ≤ 0 := roundToFloat64_nonpos hB0q
  have hBf1 : -2305843009213693952 ≤ roundToFloat64 (base : ℚ) := by
    have := roundToFloat64_mono hB1q
    rwa [roundToFloat64_neg, hpow61] at this
  have hs0 : 0 ≤ jitterFactor fma jitter r :=
    le_trans (roundToFloat64_nonneg (by linarith)) hlo
  have hs2 : jitterFactor fma jitter r ≤ 2 := by
    refine le_trans hhi ?_
    have := roundToFloat64_mono (show 1 + jitter ≤ 2 by linarith)
    rwa [roundToFloat64_two] at this
  have hp0 : roundToFloat64 (base : ℚ) * jitterFactor fma jitter r ≤ 0 :=
    mul_nonpos_of_nonpos_of_nonneg hBf0 hs0
  have hp1 : -4611686018427387904 ≤ roundToFloat64 (base : ℚ) * jitterFactor fma jitter r := by
    nlinarith
  have hr0' := roundToFloat64_nonpos hp0
  have hr1' : -4611686018427387904 ≤
      roundToFloat64 (roundToFloat64 (base : ℚ) * jitterFactor fma jitter r) := by
    have := roundToFloat64_mono hp1
    rwa [roundToFloat64_neg, hpow62] at this
  have hd := truncToDuration_of_nonpos_range ovf hr0' hr1'
  unfold loopDelay
  simp only
  rw [if_pos]
  exact lt_of_le_of_lt hd (by decide)

/-- The float64 nearest to 0.2. -/
theorem roundToFloat64_one_fifth :
    roundToFloat64 (1 / 5) = 3602879701896397 / 18014398509481984 := by
  rw [roundToFloat64_of_nonneg (by norm_num),
    roundNonneg_eq_of_exponent (e := -3) (by norm_num) (by norm_num) (by norm_num),
    roundHalfEven_eq_of_lt _ 7205759403792794 (by norm_num) (by norm_num)]
  norm_num

/-- The float64 sum of 1 and the float64 nearest to 0.2. -/
theorem roundToFloat64_factor_high :
    roundToFloat64 (1 + 3602879701896397 / 18014398509481984) =
      5404319552844595 / 4503599627370496 := by
  rw [roundToFloat64_of_nonneg (by norm_num),
    roundNonneg_eq_of_exponent (e := 0) (by norm_num) (by norm_num) (by norm_num),
    roundHalfEven_eq_of_lt _ 5404319552844595 (by norm_num) (by norm_num)]
  norm_num

/-- The float64 difference of 1 and the float64 nearest to 0.2. -/
theorem roundToFloat64_factor_low :
    roundToFloat64 (1 - 3602879701896397 / 18014398509481984) =
      3602879701896397 / 4503599627370496 := by
  rw [roundToFloat64_of_nonneg (by norm_num),
    roundNonneg_eq_of_exponent (e := -1) (by norm_num) (by norm_num) (by norm_num),
    roundHalfEven_tie_odd _ 7205759403792793 (by norm_num) (by norm_num)]
  norm_num

/-- The float64 product of 15 minutes and the upper factor. -/
theorem roundToFloat64_product_high :
    roundToFloat64 (900000000000 * (5404319552844595 / 4503599627370496)) =
      1080000000000 := by
  rw [roundToFloat64_of_nonneg (by norm_num),
    roundNonneg_eq_of_exponent (e := 39) (by norm_num) (by norm_num) (by norm_num),
    roundHalfEven_eq_of_lt _ 8847360000000000 (by norm_num) (by norm_num)]
  norm_num

/-- The float64 product of 15 minutes and the lower factor. -/
theorem roundToFloat64_product_low :
    roundToFloat64 (900000000000 * (3602879701896397 / 4503599627370496)) =
      720000000000 := by
  rw [roundToFloat64_of_nonneg (by norm_num),
    roundNonneg_eq_of_exponent (e := 39) (by norm_num) (by norm_num) (by norm_num),
    roundHalfEven_eq_of_lt _ 5898240000000000 (by norm_num) (by norm_num)]
  norm_num

/-- Rounding a value of the normal range changes it by at most the relative error 2^-53. -/
theorem roundNonneg_rel_error {x : ℚ} (hx : 1 / 18014398509481984 ≤ x) :
    x * (1 - 1 / 9007199254740992) ≤ roundNonneg x ∧
      roundNonneg x ≤ x * (1 + 1 / 9007199254740992) := by
  have hpos : 0 < x := lt_of_lt_of_le (by norm_num) hx
  have hlog : -1022 ≤ Int.log 2 x := by
    rw [← Int.zpow_le_iff_le_log (by norm_num) hpos]
    have h1 : ((2 : ℕ) : ℚ) ^ (-1022 : ℤ) ≤ ((2 : ℕ) : ℚ) ^ (-54 : ℤ) :=
      zpow_le_zpow_right₀ (by norm_num) (by norm_num)
    refine le_trans h1 (le_trans (le_of_eq ?_) hx)
    norm_num
  have hE := two_zpow_exponent_le hpos hlog
  have hu := float64Ulp_pos x
  have hhalf : float64Ulp x / 2 ≤ x * (1 / 9007199254740992) := by
    have : float64Ulp x = 2 ^ float64Exponent x * (1 / 4503599627370496) := by
      unfold float64Ulp
      rw [zpow_sub₀ (by norm_num)]
      norm_num
      ring
    rw [this]
    linarith
  have hq : x / float64Ulp x * float64Ulp x = x := by
    field_simp
  have h1 := roundHalfEven_sub_le (x / float64Ulp x)
  have h2 := roundHalfEven_le_add (x / float64Ulp x)
  have h1' := mul_le_mul_of_nonneg_right h1 hu.le
  have h2' := mul_le_mul_of_nonneg_right h2 hu.le
  unfold roundNonneg
  constructor <;> nlinarith

/-- A float64 below 1 is at most `1 - 2^-53`. -/
theorem le_of_float64_lt_one {x : ℚ} (hx0 : 0 ≤ x) (hx1 : x < 1)
    (hf : roundToFloat64 x = x) : x ≤ 1 - 1 / 9007199254740992 := by
  rcases lt_or_le x (1 / 2) with h | h
  · linarith
  · rw [roundToFloat64_of_nonneg hx0,
      roundNonneg_eq_of_exponent (e := -1) (by norm_num; linarith) (by norm_num; linarith)
        (by norm_num)] at hf
    have hlt : ((roundHalfEven (x / 2 ^ ((-1 : ℤ) - 52)) : ℤ) : ℚ) < ((9007199254740992 : ℤ) : ℚ) := by
      have h53 : (2 : ℚ) ^ ((-1 : ℤ) - 52) = 1 / 9007199254740992 := by norm_num
      rw [h53] at hf ⊢
      push_cast
      linarith
    have hle : roundHalfEven (x / 2 ^ ((-1 : ℤ) - 52)) ≤ 9007199254740991 := by
      have : roundHalfEven (x / 2 ^ ((-1 : ℤ) - 52)) < 9007199254740992 := by exact_mod_cast hlt
      omega
    have hle' : ((roundHalfEven (x / 2 ^ ((-1 : ℤ) - 52)) : ℤ) : ℚ) ≤ 9007199254740991 := by
      exact_mod_cast hle
    have h53 : (2 : ℚ) ^ ((-1 : ℤ) - 52) = 1 / 9007199254740992 := by norm_num
    rw [h53] at hf hle'
    linarith

/-- The rounded extreme products stay within the relative error 2^-51 of `B(1-J)` and
`B(1+J)`, for a base interval that is not negative. -/
theorem extreme_products_near (base : Int) (jitter : ℚ)
    (hJ0 : 0 ≤ jitter) (hJ1 : jitter < 1) (hJf : roundToFloat64 jitter = jitter)
    (hB0 : 0 ≤ base) :
    (base : ℚ) * (1 - jitter) * (1 - 1 / 2251799813685248) ≤
        roundToFloat64 (roundToFloat64 (base : ℚ) * roundToFloat64 (1 - jitter)) ∧
      roundToFloat64 (roundToFloat64 (base : ℚ) * roundToFloat64 (1 + jitter)) ≤
        (base : ℚ) * (1 + jitter) * (1 + 1 / 2251799813685248) := by
  rcases eq_or_lt_of_le hB0 with h0 | hpos
  · subst h0
    simp [roundToFloat64_zero]
  · have hB1 : (1 : ℚ) ≤ (base : ℚ) := by exact_mod_cast hpos
    have hJle := le_of_float64_lt_one hJ0 hJ1 hJf
    -- the three rounded values
    obtain ⟨ha1, ha2⟩ := roundNonneg_rel_error (x := (base : ℚ)) (by linarith)
    rw [← roundToFloat64_of_nonneg (by linarith)] at ha1 ha2
    obtain ⟨hb1, -⟩ := roundNonneg_rel_error (x := 1 - jitter) (by linarith)
    rw [← roundToFloat64_of_nonneg (by linarith)] at hb1
    obtain ⟨-, hc2⟩ := roundNonneg_rel_error (x := 1 + jitter) (by linarith)
    rw [← roundToFloat64_of_nonneg (by linarith)] at hc2
    have hBf1 : 1 ≤ roundToFloat64 (base : ℚ) := by
      have := roundToFloat64_mono hB1
      rwa [roundToFloat64_one] at this
    have hlo_ge : 1 / 9007199254740992 ≤ roundToFloat64 (1 - jitter) := by
      have h1 := roundToFloat64_mono (show (1 / 9007199254740992 : ℚ) ≤ 1 - jitter by linarith)
      have h2 : roundToFloat64 (1 / 9007199254740992) = 1 / 9007199254740992 := by
        have := roundToFloat64_of_rep 1 (-53) (by norm_num) (by norm_num)
        norm_num at this
        exact this
      rwa [h2] at h1
    have hhi_ge : 1 ≤ roundToFloat64 (1 + jitter) := by
      have := roundToFloat64_mono (show (1 : ℚ) ≤ 1 + jitter by linarith)
      rwa [roundToFloat64_one] at this
    have hplo_pos : 1 / 9007199254740992 ≤
        roundToFloat64 (base : ℚ) * roundToFloat64 (1 - jitter) := by nlinarith
    have hphi_pos : 1 ≤ roundToFloat64 (base : ℚ) * roundToFloat64 (1 + jitter) := by nlinarith
    obtain ⟨hd1, -⟩ := roundNonneg_rel_error
      (x := roundToFloat64 (base : ℚ) * roundToFloat64 (1 - jitter)) (by linarith)
    rw [← roundToFloat64_of_nonneg (by linarith)] at hd1
    obtain ⟨-, he2⟩ := roundNonneg_rel_error
      (x := roundToFloat64 (base : ℚ) * roundToFloat64 (1 + jitter)) (by linarith)
    rw [← roundToFloat64_of_nonneg (by linarith)] at he2
    have hx0 : (0 : ℚ) ≤ 1 - jitter := by linarith
    constructor
    · -- lower bound
      have s1 : (base : ℚ) * (1 - 1 / 9007199254740992) *
          ((1 - jitter) * (1 - 1 / 9007199254740992)) ≤
          roundToFloat64 (base : ℚ) * roundToFloat64 (1 - jitter) :=
        mul_le_mul ha1 hb1 (mul_nonneg hx0 (by norm_num)) (by linarith)
      have s2 := mul_le_mul_of_nonneg_right s1
        (show (0 : ℚ) ≤ 1 - 1 / 9007199254740992 by norm_num)
      have s3 : (base : ℚ) * (1 - jitter) * (1 - 1 / 2251799813685248) ≤
          (base : ℚ) * (1 - 1 / 9007199254740992) *
            ((1 - jitter) * (1 - 1 / 9007199254740992)) * (1 - 1 / 9007199254740992) := by
        have hnn : 0 ≤ (base : ℚ) * (1 - jitter) := mul_nonneg (by linarith) hx0
        have hnum : (1 - 1 / 2251799813685248 : ℚ) ≤
            (1 - 1 / 9007199254740992) * (1 - 1 / 9007199254740992) *
              (1 - 1 / 9007199254740992) := by norm_num
        have := mul_le_mul_of_nonneg_left hnum hnn
        linarith
      linarith
    · -- upper bound
      have s1 : roundToFloat64 (base : ℚ) * roundToFloat64 (1 + jitter) ≤
          (base : ℚ) * (1 + 1 / 9007199254740992) *
            ((1 + jitter) * (1 + 1 / 9007199254740992)) :=
        mul_le_mul ha2 hc2 (by linarith) (mul_nonneg (by linarith) (by norm_num))
      have s2 := mul_le_mul_of_nonneg_right s1
        (show (0 : ℚ) ≤ 1 + 1 / 9007199254740992 by norm_num)
      have s3 : (base : ℚ) * (1 + 1 / 9007199254740992) *
            ((1 + jitter) * (1 + 1 / 9007199254740992)) * (1 + 1 / 9007199254740992) ≤
          (base : ℚ) * (1 + jitter) * (1 + 1 / 2251799813685248) := by
        have hnn : 0 ≤ (base : ℚ) * (1 + jitter) := mul_nonneg (by linarith) (by linarith)
        have hnum : (1 + 1 / 9007199254740992) * (1 + 1 / 9007199254740992) *
              (1 + 1 / 9007199254740992) ≤ (1 + 1 / 2251799813685248 : ℚ) := by norm_num
        have := mul_le_mul_of_nonneg_left hnum hnn
        linarith
      linarith

/-- For a base interval between 0 and 2^61 ns the conversions for the extreme jitters are
the floors of the rounded extreme products. -/
theorem jitteredDuration_eq_floor (ovf : ℚ → Int) (base : Int) (jitter : ℚ)
    (hJ0 : 0 ≤ jitter) (hJ1 : jitter < 1) (hJf : roundToFloat64 jitter = jitter)
    (hB0 : 0 ≤ base) (hB1 : base ≤ 2 ^ 61) :
    jitteredDuration ovf base (-jitter) =
        ⌊roundToFloat64 (roundToFloat64 (base : ℚ) * roundToFloat64 (1 - jitter))⌋ ∧
      jitteredDuration ovf base jitter =
        ⌊roundToFloat64 (roundToFloat64 (base : ℚ) * roundToFloat64 (1 + jitter))⌋ := by
  obtain ⟨h0, hlo, hhi, htop⟩ :=
    product_window false base jitter 0 hJ0 hJ1 hJf (le_refl _) (by norm_num) hB0 hB1
  constructor
  · unfold jitteredDuration
    rw [← sub_eq_add_neg]
    exact truncToDuration_of_range ovf h0 (le_trans hlo (le_trans hhi htop))
  · unfold jitteredDuration
    exact truncToDuration_of_range ovf (le_trans h0 (le_trans hlo hhi)) htop

/-- The float64 nearest to 0.2 is a float64 in `[0, 1)`. -/
theorem one_fifth_is_float64 :
    0 ≤ roundToFloat64 (1 / 5) ∧ roundToFloat64 (1 / 5) < 1 ∧
      roundToFloat64 (roundToFloat64 (1 / 5)) = roundToFloat64 (1 / 5) := by
  rw [roundToFloat64_one_fifth]
  refine ⟨by norm_num, by norm_num, ?_⟩
  have := roundToFloat64_of_rep 3602879701896397 (-54) (by norm_num) (by norm_num)
  norm_num at this
  exact this

/-- The conversions for the extreme jitters of base 15 minutes and jitter 0.2 are 12 and
18 minutes. -/
theorem jitteredDuration_default (ovf : ℚ → Int) :
    jitteredDuration ovf (15 * minute) (-roundToFloat64 (1 / 5)) = 12 * minute ∧
      jitteredDuration ovf (15 * minute) (roundToFloat64 (1 / 5)) = 18 * minute := by
  have hB : roundToFloat64 (((15 * minute : Int)) : ℚ) = 900000000000 := by
    have := roundToFloat64_natCast 900000000000 (by norm_num)
    norm_num [minute, second] at this ⊢
    exact this
  obtain ⟨h0, h1, hf⟩ := one_fifth_is_float64
  obtain ⟨hlo, hhi⟩ := jitteredDuration_eq_floor ovf (15 * minute) (roundToFloat64 (1 / 5))
    h0 h1 hf (by decide) (by decide)
  rw [hlo, hhi, hB, roundToFloat64_one_fifth, roundToFloat64_factor_low,
    roundToFloat64_factor_high, roundToFloat64_product_low, roundToFloat64_product_high]
  constructor
  · rw [show ((720000000000 : ℚ)) = ((720000000000 : ℤ) : ℚ) by norm_num, Int.floor_intCast]
    decide
  · rw [show ((1080000000000 : ℚ)) = ((1080000000000 : ℤ) : ℚ) by norm_num, Int.floor_intCast]
    decide

/-- A draw of 1/2 gives the factor 1. -/
theorem jitterFactor_half (fma : Bool) (jitter : ℚ) : jitterFactor fma jitter (1 / 2) = 1 := by
  unfold jitterFactor
  have h1 : roundToFloat64 ((1 : ℚ) / 2 * 2) = 1 := by
    rw [show ((1 : ℚ) / 2 * 2) = 1 by norm_num, roundToFloat64_one]
  simp only [h1, sub_self, roundToFloat64_zero, zero_mul, add_zero, roundToFloat64_one, ite_self]

/-- C1 (as stated, refuted): with base interval 100 ms, jitter 0.2 (as a float64) and the
draw `r = 1/2` the delay is the one-second floor, which exceeds `B(1+J)` = 120 ms, so
`max(1 unit, B(1-J)) ≤ d ≤ B(1+J)` does not hold. -/
theorem loopDelay_exceeds_upper_bound :
    ¬ (max ((second : Int) : ℚ) (((100000000 : Int) : ℚ) * (1 - roundToFloat64 (1 / 5)))
          ≤ ((loopDelay false overflowToMin 100000000 (roundToFloat64 (1 / 5)) (1 / 2) : Int) : ℚ) ∧
        ((loopDelay false overflowToMin 100000000 (roundToFloat64 (1 / 5)) (1 / 2) : Int) : ℚ)
          ≤ ((100000000 : Int) : ℚ) * (1 + roundToFloat64 (1 / 5))) := by
  have hB : roundToFloat64 (100000000 : ℚ) = 100000000 := by
    have := roundToFloat64_natCast 100000000 (by norm_num)
    norm_num at this
    exact this
  have hd : loopDelay false overflowToMin 100000000 (roundToFloat64 (1 / 5)) (1 / 2) = second := by
    unfold loopDelay
    simp only [jitterFactor_half, mul_one, Int.cast_ofNat, hB]
    rw [truncToDuration_of_range overflowToMin (by norm_num) (by norm_num),
      show ((100000000 : ℚ)) = ((100000000 : ℤ) : ℚ) by norm_num, Int.floor_intCast]
    decide
  rw [hd, roundToFloat64_one_fifth]
  norm_num [second]

/-- The truncation and the float64 roundings can leave the delay below `B(1-J)`: with
`B` = 11 s, `J` = 0.3 (as a float64) and the draw `r = 0` the delay is 7699999999 ns,
under `B(1-J)`, which exceeds 7700000000 ns. -/
theorem loopDelay_truncates_below :
    loopDelay false overflowToMin 11000000000 (roundToFloat64 (3 / 10)) 0 = 7699999999 ∧
      (7700000000 : ℚ) < ((11000000000 : Int) : ℚ) * (1 - roundToFloat64 (3 / 10)) := by
  have hJ : roundToFloat64 (3 / 10) = 5404319552844595 / 18014398509481984 := by
    rw [roundToFloat64_of_nonneg (by norm_num),
      roundNonneg_eq_of_exponent (e := -2) (by norm_num) (by norm_num) (by norm_num),
      roundHalfEven_eq_of_lt _ 5404319552844595 (by norm_num) (by norm_num)]
    norm_num
  have hJrep : roundToFloat64 (5404319552844595 / 18014398509481984) =
      5404319552844595 / 18014398509481984 := by
    have := roundToFloat64_of_rep 5404319552844595 (-54) (by norm_num) (by norm_num)
    norm_num at this
    exact this
  have hs : roundToFloat64 (1 + -(5404319552844595 / 18014398509481984)) =
      3152519739159347 / 4503599627370496 := by
    rw [roundToFloat64_of_nonneg (by norm_num),
      roundNonneg_eq_of_exponent (e := -1) (by norm_num) (by norm_num) (by norm_num),
      roundHalfEven_tie_even _ 6305039478318694 (by norm_num) (by norm_num)]
    norm_num
  have hB : roundToFloat64 (11000000000 : ℚ) = 11000000000 := by
    have := roundToFloat64_natCast 11000000000 (by norm_num)
    norm_num at this
    exact this
  have hp : roundToFloat64 (11000000000 * (3152519739159347 / 4503599627370496)) =
      8074035199999999 / 1048576 := by
    rw [roundToFloat64_of_nonneg (by norm_num),
      roundNonneg_eq_of_exponent (e := 32) (by norm_num) (by norm_num) (by norm_num),
      roundHalfEven_eq_of_lt _ 8074035199999999 (by norm_num) (by norm_num)]
    norm_num
  constructor
  · unfold loopDelay jitterFactor
    simp only [zero_mul, roundToFloat64_zero, zero_sub, roundToFloat64_neg, roundToFloat64_one,
      neg_mul, one_mul, Bool.false_eq_true, if_false, Int.cast_ofNat, hB, hJ, hJrep, hs, hp]
    rw [truncToDuration_of_range overflowToMin (by norm_num) (by norm_num)]
    have hfl : ⌊(8074035199999999 / 1048576 : ℚ)⌋ = 7699999999 := by
      rw [Int.floor_eq_iff]
      constructor <;> norm_num
    rw [hfl]
    decide
  · rw [hJ]
    norm_num

/-- C1 (amended): for every float64 jitter fraction `J` with `0 ≤ J < 1` and every draw
`r ∈ [0, 1)`, with or without fused multiply-add, the delay `d` of one cycle of
`Scheduler.loop` is at least one second for every base interval; for a base interval
`0 ≤ B ≤ 2^61` ns it lies between the delays the same float64 product and conversion
give for the extreme jitters `-J` and `+J`, each raised to the one-second floor, so
`B(1-J)(1 - 2^-51) - 1 ns < d ≤ max(1 s, B(1+J)(1 + 2^-51))`; for `-2^61 ≤ B < 0` it is
one second; for `B` = 15 minutes and `J` = 0.2 (as a float64) every delay lies in
`[12 minutes, 18 minutes]`. -/
theorem loopDelay_bounds (fma : Bool) (ovf : ℚ → Int) (base : Int) (jitter r : ℚ)
    (hJ0 : 0 ≤ jitter) (hJ1 : jitter < 1) (hJf : roundToFloat64 jitter = jitter)
    (hr0 : 0 ≤ r) (hr1 : r < 1) :
    second ≤ loopDelay fma ovf base jitter r ∧
      (0 ≤ base → base ≤ 2 ^ 61 →
        max second (jitteredDuration ovf base (-jitter)) ≤ loopDelay fma ovf base jitter r ∧
          loopDelay fma ovf base jitter r ≤ max second (jitteredDuration ovf base jitter) ∧
          (base : ℚ) * (1 - jitter) * (1 - 1 / 2251799813685248) - 1 <
            ((loopDelay fma ovf base jitter r : Int) : ℚ) ∧
          ((loopDelay fma ovf base jitter r : Int) : ℚ) ≤
            max (second : ℚ) ((base : ℚ) * (1 + jitter) * (1 + 1 / 2251799813685248))) ∧
      (base < 0 → -2 ^ 61 ≤ base → loopDelay fma ovf base jitter r = second) ∧
      (base = 15 * minute → jitter = roundToFloat64 (1 / 5) →
        12 * minute ≤ loopDelay fma ovf base jitter r ∧
          loopDelay fma ovf base jitter r ≤ 18 * minute) := by
  refine ⟨second_le_loopDelay _ _ _ _ _, ?_, ?_, ?_⟩
  · intro hB0 hB1
    obtain ⟨hlo, hhi⟩ := loopDelay_window fma ovf base jitter r hJ0 hJ1 hJf hr0 hr1 hB0 hB1
    obtain ⟨hflo, hfhi⟩ := jitteredDuration_eq_floor ovf base jitter hJ0 hJ1 hJf hB0 hB1
    obtain ⟨hnlo, hnhi⟩ := extreme_products_near base jitter hJ0 hJ1 hJf hB0
    refine ⟨hlo, hhi, ?_, ?_⟩
    · have h1 : jitteredDuration ovf base (-jitter) ≤ loopDelay fma ovf base jitter r :=
        le_trans (le_max_right _ _) hlo
      have h2 : ((jitteredDuration ovf base (-jitter) : Int) : ℚ) ≤
          ((loopDelay fma ovf base jitter r : Int) : ℚ) := by exact_mod_cast h1
      have h3 := Int.lt_floor_add_one
        (roundToFloat64 (roundToFloat64 (base : ℚ) * roundToFloat64 (1 - jitter)))
      rw [← hflo] at h3
      linarith
    · have h1 : ((loopDelay fma ovf base jitter r : Int) : ℚ) ≤
          ((max second (jitteredDuration ovf base jitter) : Int) : ℚ) := by exact_mod_cast hhi
      refine le_trans h1 ?_
      rw [Int.cast_max]
      apply max_le_max (le_refl _)
      have h3 := Int.floor_le
        (roundToFloat64 (roundToFloat64 (base : ℚ) * roundToFloat64 (1 + jitter)))
      rw [← hfhi] at h3
      linarith
  · intro hB0 hB1
    exact loopDelay_of_neg fma ovf base jitter r hJ0 hJ1 hJf hr0 hr1 hB0 hB1
  · rintro rfl rfl
    obtain ⟨hlo, hhi⟩ := loopDelay_window fma ovf (15 * minute) (roundToFloat64 (1 / 5)) r
      hJ0 hJ1 hJf hr0 hr1 (by decide) (by decide)
    obtain ⟨h12, h18⟩ := jitteredDuration_default ovf
    rw [h12] at hlo
    rw [h18] at hhi
    exact ⟨le_trans (le_max_right _ _) hlo, le_trans hhi (max_le (by decide) (le_refl _))⟩

/-- C1 witness: base 15 minutes, jitter 0.2 as a float64, draw `r = 1/2`, without fused
multiply-add. -/
theorem loopDelay_bounds_witness :
    second ≤ loopDelay false overflowToMin (15 * minute) (roundToFloat64 (1 / 5)) (1 / 2) ∧
      12 * minute ≤ loopDelay false overflowToMin (15 * minute) (roundToFloat64 (1 / 5)) (1 / 2) ∧
      loopDelay false overflowToMin (15 * minute) (roundToFloat64 (1 / 5)) (1 / 2) ≤ 18 * minute :=
  ⟨(loopDelay_bounds false overflowToMin (15 * minute) (roundToFloat64 (1 / 5)) (1 / 2)
      one_fifth_is_float64.1 one_fifth_is_float64.2.1 one_fifth_is_float64.2.2
      (by norm_num) (by norm_num)).1,
    (loopDelay_bounds false overflowToMin (15 * minute) (roundToFloat64 (1 / 5)) (1 / 2)
      one_fifth_is_float64.1 one_fifth_is_float64.2.1 one_fifth_is_float64.2.2
      (by norm_num) (by norm_num)).2.2.2 rfl rfl⟩

end Schedule

/-! ## Theorems: the claim service -/

namespace ClaimService

/-- The only call made while building the instruction list is the pre-check of the holding
account, made when the mint is known. -/
theorem buildInstructions_calls (lib : Lib) (rpc : Rpc) (s : Service) :
    (buildInstructions lib rpc s).2 =
      if s.mint.IsZero then [] else [RpcCall.getAccountInfo (ataAddress lib s)] := by
  unfold buildInstructions
  cases hz : s.mint.IsZero <;> simp
  split_ifs <;> rfl

/-- The confirmation loop only polls the signature status. -/
theorem confirmLoop_calls (sig : String)
    (l : List (Option GetSignatureStatusesResult × Option String)) :
    ∀ c ∈ (confirmLoop sig l).2, c = RpcCall.getSignatureStatuses sig := by
  induction l with
  | nil => simp [confirmLoop]
  | cons resp rest ih =>
    unfold confirmLoop
    split_ifs with h
    · simp
    · intro c hc
      simp only [List.mem_cons] at hc
      rcases hc with rfl | hc
      · rfl
      · exact ih c hc

/-- No simulate, send or status call precedes the simulation. -/
theorem preamble_reads (lib : Lib) (rpc : Rpc) (s : Service) :
    ∀ c ∈ preamble lib rpc s,
      (∀ tx, c ≠ RpcCall.simulateTransaction tx) ∧ (∀ tx, c ≠ RpcCall.sendTransaction tx) ∧
        (∀ sig, c ≠ RpcCall.getSignatureStatuses sig) := by
  intro c hc
  unfold preamble at hc
  rw [buildInstructions_calls] at hc
  split_ifs at hc <;> simp at hc <;> (try rcases hc with rfl | rfl) <;> simp

/-- The five ways an attempt ends: before the simulation, on a failed simulate call, on a
simulation reporting an error, after a successful simulation in simulate-only mode, or
after the send call. -/
theorem Claim_run (lib : Lib) (rpc : Rpc) (s : Service) (opts : ClaimOptions) :
    (∃ pre e, (∀ c ∈ pre, c ∈ preamble lib rpc s) ∧
        Claim lib rpc s opts = (.error e, pre)) ∨
    (∃ tx e, rpc.simulateTransaction tx = .error e ∧
        Claim lib rpc s opts =
          (.error ("simulate: " ++ e), preamble lib rpc s ++ [RpcCall.simulateTransaction tx])) ∨
    (∃ tx sim err, rpc.simulateTransaction tx = .ok sim ∧ sim.err = some err ∧
        Claim lib rpc s opts =
          (.error (simulationError err sim.logs),
            preamble lib rpc s ++ [RpcCall.simulateTransaction tx])) ∨
    (∃ tx sim, rpc.simulateTransaction tx = .ok sim ∧ sim.err = none ∧
        opts.simulateOnly = true ∧
        Claim lib rpc s opts =
          (.ok "simulation OK", preamble lib rpc s ++ [RpcCall.simulateTransaction tx])) ∨
    (∃ tx sim polls, rpc.simulateTransaction tx = .ok sim ∧ sim.err = none ∧
        opts.simulateOnly = false ∧
        (∀ c ∈ polls, ∃ sig, c = RpcCall.getSignatureStatuses sig) ∧
        (Claim lib rpc s opts).2 =
          preamble lib rpc s ++
            RpcCall.simulateTransaction tx :: RpcCall.sendTransaction tx :: polls) := by
  unfold Claim
  simp only
  split
  · left
    exact ⟨_, _, by simp [preamble], rfl⟩
  · split
    · left
      exact ⟨_, _, by simp [preamble], rfl⟩
    · split
      · left
        exact ⟨_, _, by simp [preamble], rfl⟩
      · rename_i tx hsign
        split
        · rename_i e hsim
          right; left
          exact ⟨tx, e, hsim, by simp [preamble]⟩
        · rename_i sim hsim
          split
          · rename_i err herr
            right; right; left
            exact ⟨tx, sim, err, hsim, herr, by simp [preamble]⟩
          · rename_i herr
            cases hso : opts.simulateOnly
            · right; right; right; right
              simp only [Bool.false_eq_true, if_false]
              split
              · exact ⟨tx, sim, [], hsim, herr, trivial, by simp, by simp [preamble]⟩
              · rename_i sig hsend
                refine ⟨tx, sim, (confirmLoop sig rpc.signatureStatuses).2, hsim, herr, trivial, ?_, ?_⟩
                · intro c hc
                  exact ⟨sig, confirmLoop_calls sig _ c hc⟩
                · simp [preamble]
            · right; right; right; left
              exact ⟨tx, sim, hsim, herr, rfl, by simp [preamble]⟩


/-- C2: for every template, configuration, options and responses of the collaborators:
if the simulate call made by `Claim` fails or returns a result whose error field is set,
`Claim` returns an error and the attempt makes no send call; when the simulation reported
an error, the returned error carries it with the log lines joined in order by newlines;
and in the recorded call order a send call only occurs directly after the simulate call
of the same transaction, which reported no error, with no other simulate or send call
before or after. -/
theorem claim_never_sends_after_failed_simulation
    (lib : Lib) (rpc : Rpc) (s : Service) (opts : ClaimOptions) :
    (∀ tx, RpcCall.simulateTransaction tx ∈ (Claim lib rpc s opts).2 →
        (∀ sim, rpc.simulateTransaction tx = .ok sim → sim.err ≠ none) →
        (∃ e, (Claim lib rpc s opts).1 = .error e) ∧
          ∀ tx1, RpcCall.sendTransaction tx1 ∉ (Claim lib rpc s opts).2) ∧
    (∀ tx sim err, RpcCall.simulateTransaction tx ∈ (Claim lib rpc s opts).2 →
        rpc.simulateTransaction tx = .ok sim → sim.err = some err →
        (Claim lib rpc s opts).1 =
          .error ("simulation error: " ++ err ++ "\nlogs:\n" ++ "\n".intercalate sim.logs)) ∧
    (∀ tx1, RpcCall.sendTransaction tx1 ∈ (Claim lib rpc s opts).2 →
        ∃ pre post sim,
          (Claim lib rpc s opts).2 =
            pre ++ RpcCall.simulateTransaction tx1 :: RpcCall.sendTransaction tx1 :: post ∧
          rpc.simulateTransaction tx1 = .ok sim ∧ sim.err = none ∧
          (∀ c ∈ pre, (∀ tx, c ≠ RpcCall.simulateTransaction tx) ∧
            ∀ tx, c ≠ RpcCall.sendTransaction tx) ∧
          (∀ c ∈ post, (∀ tx, c ≠ RpcCall.simulateTransaction tx) ∧
            ∀ tx, c ≠ RpcCall.sendTransaction tx)) := by
  have hpre := preamble_reads lib rpc s
  have hnosim : ∀ tx, RpcCall.simulateTransaction tx ∉ preamble lib rpc s :=
    fun tx h => (hpre _ h).1 tx rfl
  have hnosend : ∀ tx, RpcCall.sendTransaction tx ∉ preamble lib rpc s :=
    fun tx h => (hpre _ h).2.1 tx rfl
  rcases Claim_run lib rpc s opts with
    ⟨pre, e, hsub, hrun⟩ | ⟨tx0, e, hsim, hrun⟩ | ⟨tx0, sim0, err0, hsim, herr, hrun⟩ |
    ⟨tx0, sim0, hsim, herr, -, hrun⟩ | ⟨tx0, sim0, polls, hsim, herr, -, hpolls, hrun⟩
  · rw [hrun]
    refine ⟨fun tx h => absurd (hsub _ h) (hnosim tx), fun tx _ _ h => absurd (hsub _ h) (hnosim tx),
      fun tx h => absurd (hsub _ h) (hnosend tx)⟩
  · rw [hrun]
    refine ⟨fun tx _ _ => ⟨⟨_, rfl⟩, ?_⟩, ?_, ?_⟩
    · intro tx1 h
      simp only [List.mem_append, List.mem_singleton] at h
      rcases h with h | h
      · exact hnosend _ h
      · cases h
    · intro tx sim err h hs _
      simp only [List.mem_append, List.mem_singleton] at h
      rcases h with h | h
      · exact absurd h (hnosim _)
      · cases h
        rw [hsim] at hs
        cases hs
    · intro tx1 h
      simp only [List.mem_append, List.mem_singleton] at h
      rcases h with h | h
      · exact absurd h (hnosend _)
      · cases h
  · rw [hrun]
    refine ⟨fun tx _ _ => ⟨⟨_, rfl⟩, ?_⟩, ?_, ?_⟩
    · intro tx1 h
      simp only [List.mem_append, List.mem_singleton] at h
      rcases h with h | h
      · exact hnosend _ h
      · cases h
    · intro tx sim err h hs he
      simp only [List.mem_append, List.mem_singleton] at h
      rcases h with h | h
      · exact absurd h (hnosim _)
      · cases h
        rw [hsim] at hs
        cases hs
        rw [herr] at he
        cases he
        rfl
    · intro tx1 h
      simp only [List.mem_append, List.mem_singleton] at h
      rcases h with h | h
      · exact absurd h (hnosend _)
      · cases h
  · rw [hrun]
    refine ⟨?_, ?_, ?_⟩
    · intro tx h hfail
      simp only [List.mem_append, List.mem_singleton] at h
      rcases h with h | h
      · exact absurd h (hnosim _)
      · cases h
        exact absurd herr (hfail _ hsim)
    · intro tx sim err h hs he
      simp only [List.mem_append, List.mem_singleton] at h
      rcases h with h | h
      · exact absurd h (hnosim _)
      · cases h
        rw [hsim] at hs
        cases hs
        rw [herr] at he
        cases he
    · intro tx1 h
      simp only [List.mem_append, List.mem_singleton] at h
      rcases h with h | h
      · exact absurd h (hnosend _)
      · cases h
  · have hpollsim : ∀ tx, RpcCall.simulateTransaction tx ∉ polls := by
      intro tx h
      obtain ⟨sig, hc⟩ := hpolls _ h
      cases hc
    have hpollsend : ∀ tx, RpcCall.sendTransaction tx ∉ polls := by
      intro tx h
      obtain ⟨sig, hc⟩ := hpolls _ h
      cases hc
    have hmemsim : ∀ tx, RpcCall.simulateTransaction tx ∈ (Claim lib rpc s opts).2 → tx = tx0 := by
      intro tx h
      rw [hrun] at h
      simp only [List.mem_append, List.mem_cons] at h
      rcases h with h | h | h | h
      · exact absurd h (hnosim _)
      · cases h; rfl
      · cases h
      · exact absurd h (hpollsim _)
    refine ⟨?_, ?_, ?_⟩
    · intro tx h hfail
      cases hmemsim tx h
      exact absurd herr (hfail _ hsim)
    · intro tx sim err h hs he
      cases hmemsim tx h
      rw [hsim] at hs
      cases hs
      rw [herr] at he
      cases he
    · intro tx1 h
      have h1 : tx1 = tx0 := by
        rw [hrun] at h
        simp only [List.mem_append, List.mem_cons] at h
        rcases h with h | h | h | h
        · exact absurd h (hnosend _)
        · cases h
        · cases h; rfl
        · exact absurd h (hpollsend _)
      subst h1
      refine ⟨preamble lib rpc s, polls, sim0, hrun, hsim, herr, ?_, ?_⟩
      · intro c hc
        exact ⟨(hpre c hc).1, (hpre c hc).2.1⟩
      · intro c hc
        obtain ⟨sig, rfl⟩ := hpolls c hc
        exact ⟨fun _ h => (by cases h), fun _ h => (by cases h)⟩


/-- C2 witness: against the sample collaborator whose simulation reports an error with
two log lines, the attempt returns the error carrying both lines and sends nothing. -/
theorem claim_never_sends_after_failed_simulation_witness :
    (Claim Sample.lib Sample.rpcSimFails Sample.service { simulateOnly := false }).1 =
        .error "simulation error: InstructionError\nlogs:\nProgram log: a\nProgram log: b" ∧
      RpcCall.sendTransaction Sample.signedTx ∉
        (Claim Sample.lib Sample.rpcSimFails Sample.service { simulateOnly := false }).2 :=
  ⟨(claim_never_sends_after_failed_simulation Sample.lib Sample.rpcSimFails Sample.service
      { simulateOnly := false }).2.1 Sample.signedTx
      { err := some "InstructionError", logs := ["Program log: a", "Program log: b"] }
      "InstructionError" (by decide) rfl rfl,
    ((claim_never_sends_after_failed_simulation Sample.lib Sample.rpcSimFails Sample.service
      { simulateOnly := false }).1 Sample.signedTx (by decide)
      (fun sim h => by cases h; exact fun h0 => by cases h0)).2 Sample.signedTx⟩

/-- Every transaction `Claim` simulates is the assembled and signed one. -/
theorem Claim_simulates_assembled (lib : Lib) (rpc : Rpc) (s : Service) (opts : ClaimOptions) :
    ∀ tx, RpcCall.simulateTransaction tx ∈ (Claim lib rpc s opts).2 → Assembled lib rpc s tx := by
  intro tx h
  have hb := buildInstructions_calls lib rpc s
  have hnosim : RpcCall.simulateTransaction tx ∉ (buildInstructions lib rpc s).2 := by
    rw [hb]; split_ifs <;> simp
  unfold Claim at h
  simp only at h
  split at h
  · simp at h
  · rename_i blockhash hbh
    split at h
    · simp [hnosim] at h
    · rename_i tx0 hnew
      split at h
      · simp [hnosim] at h
      · rename_i tx1 hsign
        have key : tx = tx1 := by
          have hpolls : ∀ sig l, RpcCall.simulateTransaction tx ∉ (confirmLoop sig l).2 := by
            intro sig l hc
            cases confirmLoop_calls sig l _ hc
          split at h
          · simpa [hnosim] using h
          · split at h
            · simpa [hnosim] using h
            · split at h
              · simpa [hnosim] using h
              · split at h
                · simpa [hnosim] using h
                · simpa [hnosim, hpolls] using h
        subst key
        exact ⟨blockhash, tx0, hbh, hnew, hsign⟩

/-- C8: for every template and responses of the collaborators in which the blockhash
fetch, the assembly, the signing and the simulation succeed and the simulation reports no
error, `Claim` with `SimulateOnly` set returns `simulation OK` without error, and its
calls are the blockhash fetch, the holding-account pre-check if any, and the simulation:
neither send-transaction nor get-signature-statuses is invoked. -/
theorem claim_simulate_only (lib : Lib) (rpc : Rpc) (s : Service) (opts : ClaimOptions)
    (blockhash : String) (tx0 tx : Transaction) (sim : SimulateTransactionResult)
    (hbh : rpc.getLatestBlockhash s.cfg.rpc.commitment = .ok blockhash)
    (hnew : lib.newTransaction (buildInstructions lib rpc s).1 blockhash
      (lib.publicKey s.wallet) = .ok tx0)
    (hsign : lib.sign tx0 (walletKeyGetter lib s) = .ok tx)
    (hsim : rpc.simulateTransaction tx = .ok sim) (herr : sim.err = none)
    (hso : opts.simulateOnly = true) :
    (Claim lib rpc s opts).1 = .ok "simulation OK" ∧
      (Claim lib rpc s opts).2 =
        RpcCall.getLatestBlockhash s.cfg.rpc.commitment ::
          ((buildInstructions lib rpc s).2 ++ [RpcCall.simulateTransaction tx]) ∧
      (∀ tx1, RpcCall.sendTransaction tx1 ∉ (Claim lib rpc s opts).2) ∧
      (∀ sig, RpcCall.getSignatureStatuses sig ∉ (Claim lib rpc s opts).2) := by
  have hrun : Claim lib rpc s opts =
      (.ok "simulation OK", RpcCall.getLatestBlockhash s.cfg.rpc.commitment ::
          ((buildInstructions lib rpc s).2 ++ [RpcCall.simulateTransaction tx])) := by
    unfold Claim
    simp only [hbh, hnew, hsign, hsim, herr, hso, if_true, List.singleton_append,
      List.cons_append, List.nil_append]
  have hb := buildInstructions_calls lib rpc s
  rw [hrun]
  refine ⟨rfl, rfl, ?_, ?_⟩
  · intro tx1
    rw [hb]; split_ifs <;> simp
  · intro sig
    rw [hb]; split_ifs <;> simp

/-- C8 witness: the sample attempt in simulate-only mode. -/
theorem claim_simulate_only_witness :
    (Claim Sample.lib Sample.rpc Sample.service { simulateOnly := true }).1 =
        .ok "simulation OK" ∧
      (Claim Sample.lib Sample.rpc Sample.service { simulateOnly := true }).2 =
        [ RpcCall.getLatestBlockhash "confirmed", RpcCall.getAccountInfo Sample.ataKey,
          RpcCall.simulateTransaction Sample.signedTx ] :=
  ⟨(claim_simulate_only Sample.lib Sample.rpc Sample.service { simulateOnly := true }
      "B1ockhash" Sample.unsignedTx Sample.signedTx
      { err := none, logs := ["Program log: claimed"] } rfl rfl rfl rfl rfl rfl).1,
    (claim_simulate_only Sample.lib Sample.rpc Sample.service { simulateOnly := true }
      "B1ockhash" Sample.unsignedTx Sample.signedTx
      { err := none, logs := ["Program log: claimed"] } rfl rfl rfl rfl rfl rfl).2.1⟩

/-- The three cases in which the pre-check counts the holding account as missing. -/
theorem accountMissing_iff (resp : Option GetAccountInfoResult × Option String) :
    accountMissing resp = true ↔
      resp.1 = none ∨ (∃ a, resp.1 = some a ∧ a.value = none) ∨
        (∃ a v, resp.1 = some a ∧ a.value = some v ∧ v.lamports = 0) := by
  obtain ⟨r, e⟩ := resp
  cases r with
  | none => simp [accountMissing]
  | some a =>
    obtain ⟨v⟩ := a
    cases v with
    | none => simp [accountMissing]
    | some v => simp [accountMissing]

/-- The built instruction list as the concatenation of its four segments. -/
theorem buildInstructions_eq (lib : Lib) (rpc : Rpc) (s : Service) :
    (buildInstructions lib rpc s).1 =
      (if s.cfg.fees.computeUnitLimit > 0 then
          [Instruction.setComputeUnitLimit s.cfg.fees.computeUnitLimit] else []) ++
      (if s.cfg.fees.priorityMicrolamports > 0 then
          [Instruction.setComputeUnitPrice s.cfg.fees.priorityMicrolamports] else []) ++
      (if s.mint.IsZero = false ∧ accountMissing (rpc.getAccountInfo (ataAddress lib s)) = true
          then [createATAInstruction lib s] else []) ++
      [Instruction.generic s.claimProgram s.claimIxAccts s.claimIxData] := by
  unfold buildInstructions claimInstruction
  cases hz : s.mint.IsZero <;>
    cases hm : accountMissing (rpc.getAccountInfo (ataAddress lib s)) <;>
    by_cases h1 : s.cfg.fees.computeUnitLimit > 0 <;>
    by_cases h2 : s.cfg.fees.priorityMicrolamports > 0 <;>
    simp [hz, hm, h1, h2]


/-- A well-known token program id is not the zero key. -/
theorem isTokenProgram_ne_zero (p : PublicKey) (h : isTokenProgram p = true) :
    p.IsZero = false := by
  unfold isTokenProgram at h
  unfold PublicKey.IsZero PublicKey.zero
  simp only [Bool.or_eq_true, beq_iff_eq] at h
  rcases p with ⟨t⟩
  simp only [decide_eq_false_iff_not, PublicKey.mk.injEq]
  rcases h with h | h <;> (simp only at h; subst h; decide)

/-- The top-level scan of a concatenation runs the scans one after the other. -/
theorem scanTopLevel_append (lib : Lib) (msg : Message) (l1 l2 : List CompiledInstruction)
    (s : Service) :
    scanTopLevel lib msg (l1 ++ l2) s =
      match scanTopLevel lib msg l1 s with
      | .error f => .error f
      | .ok s1 => scanTopLevel lib msg l2 s1 := by
  induction l1 generalizing s with
  | nil => simp [scanTopLevel]
  | cons ci rest ih =>
    simp only [List.cons_append, scanTopLevel]
    split
    · rfl
    · split
      · rfl
      · exact ih _

/-- One step of the top-level scan, when it does not fail. -/
theorem scanTopLevel_cons_ok (lib : Lib) (msg : Message) (ci : CompiledInstruction)
    (rest : List CompiledInstruction) (s s1 : Service)
    (h : scanTopLevel lib msg (ci :: rest) s = .ok s1) :
    ∃ prog s0, msg.accountKeys[ci.programIDIndex]? = some prog ∧
      (if prog = s.claimProgram then
          ∃ metas, lib.resolveInstructionAccounts ci msg = .ok metas ∧
            s0 = { s with claimIxAccts := metas, claimIxData := ci.data }
        else s0 = s) ∧
      scanTopLevel lib msg rest
        (if isTokenProgram prog then { s0 with tokenProgram := prog } else s0) = .ok s1 := by
  simp only [scanTopLevel] at h
  split at h
  · cases h
  · rename_i prog hprog
    refine ⟨prog, ?_⟩
    by_cases hp : prog = s.claimProgram
    · simp only [hp, if_true] at h ⊢
      cases hres : lib.resolveInstructionAccounts ci msg with
      | error f => simp [hres] at h
      | ok metas =>
        simp only [hres] at h
        exact ⟨_, hp ▸ hprog, ⟨metas, rfl, rfl⟩, h⟩
    · simp only [hp, if_false] at h ⊢
      exact ⟨s, hprog, rfl, h⟩

/-- The top-level scan leaves wallet, configuration, claim program and mint unchanged. -/
theorem scanTopLevel_frame (lib : Lib) (msg : Message) (l : List CompiledInstruction)
    (s s1 : Service) (h : scanTopLevel lib msg l s = .ok s1) :
    s1.wallet = s.wallet ∧ s1.cfg = s.cfg ∧ s1.claimProgram = s.claimProgram ∧
      s1.mint = s.mint := by
  induction l generalizing s with
  | nil =>
    simp only [scanTopLevel, Except.ok.injEq] at h
    subst h
    exact ⟨rfl, rfl, rfl, rfl⟩
  | cons ci rest ih =>
    obtain ⟨prog, s0, -, hs0, hrest⟩ := scanTopLevel_cons_ok lib msg ci rest s s1 h
    have h0 : s0.wallet = s.wallet ∧ s0.cfg = s.cfg ∧ s0.claimProgram = s.claimProgram ∧
        s0.mint = s.mint := by
      split_ifs at hs0
      · obtain ⟨metas, -, rfl⟩ := hs0
        exact ⟨rfl, rfl, rfl, rfl⟩
      · subst hs0
        exact ⟨rfl, rfl, rfl, rfl⟩
    have := ih _ hrest
    split_ifs at this <;> simp_all

/-- Without an instruction of the claim program the top-level scan captures nothing. -/
theorem scanTopLevel_no_claim (lib : Lib) (msg : Message) (l : List CompiledInstruction)
    (s s1 : Service) (h : scanTopLevel lib msg l s = .ok s1)
    (hno : ∀ ci ∈ l, msg.accountKeys[ci.programIDIndex]? ≠ some s.claimProgram) :
    s1.claimIxAccts = s.claimIxAccts ∧ s1.claimIxData = s.claimIxData := by
  induction l generalizing s with
  | nil =>
    simp only [scanTopLevel, Except.ok.injEq] at h
    subst h
    exact ⟨rfl, rfl⟩
  | cons ci rest ih =>
    obtain ⟨prog, s0, hprog, hs0, hrest⟩ := scanTopLevel_cons_ok lib msg ci rest s s1 h
    have hne : prog ≠ s.claimProgram := by
      intro hp
      exact hno ci (List.mem_cons_self _ _) (hp ▸ hprog)
    simp only [hne, if_false] at hs0
    subst hs0
    have := ih _ hrest (by
      intro c hc
      have := hno c (List.mem_cons_of_mem _ hc)
      split_ifs <;> simpa using this)
    split_ifs at this <;> simpa using this

/-- After the top-level scan the token program is unchanged and no instruction is of a token
program, or it is the well-known program id of some top-level instruction. -/
theorem scanTopLevel_token (lib : Lib) (msg : Message) (l : List CompiledInstruction)
    (s s1 : Service) (h : scanTopLevel lib msg l s = .ok s1) :
    (s1.tokenProgram = s.tokenProgram ∧
        ∀ ci ∈ l, ∀ prog, msg.accountKeys[ci.programIDIndex]? = some prog →
          isTokenProgram prog = false) ∨
      (isTokenProgram s1.tokenProgram = true ∧
        ∃ ci ∈ l, msg.accountKeys[ci.programIDIndex]? = some s1.tokenProgram) := by
  induction l generalizing s with
  | nil =>
    simp only [scanTopLevel, Except.ok.injEq] at h
    subst h
    left
    exact ⟨rfl, by simp⟩
  | cons ci rest ih =>
    obtain ⟨prog, s0, hprog, hs0, hrest⟩ := scanTopLevel_cons_ok lib msg ci rest s s1 h
    have h0 : s0.tokenProgram = s.tokenProgram := by
      split_ifs at hs0
      · obtain ⟨metas, -, rfl⟩ := hs0
        rfl
      · subst hs0
        rfl
    rcases ih _ hrest with ⟨heq, hnone⟩ | ⟨htok, c, hc, hcp⟩
    · cases ht : isTokenProgram prog
      · left
        simp only [ht, Bool.false_eq_true, if_false] at heq
        refine ⟨heq.trans h0, ?_⟩
        intro c hc p hp
        rcases List.mem_cons.mp hc with rfl | hc
        · rw [hprog] at hp
          cases hp
          exact ht
        · exact hnone c hc p hp
      · right
        simp only [ht, if_true] at heq
        rw [heq]
        exact ⟨ht, ci, List.mem_cons_self _ _, hprog⟩
    · right
      exact ⟨htok, c, List.mem_cons_of_mem _ hc, hcp⟩

/-- The top-level scan succeeds when the program indices are in range and the accounts of
the claim-program instructions resolve. -/
theorem scanTopLevel_ok (lib : Lib) (msg : Message) (l : List CompiledInstruction)
    (s : Service)
    (hrange : ∀ ci ∈ l, ci.programIDIndex < msg.accountKeys.length)
    (hres : ∀ ci ∈ l, msg.accountKeys[ci.programIDIndex]? = some s.claimProgram →
      ∃ metas, lib.resolveInstructionAccounts ci msg = .ok metas) :
    ∃ s1, scanTopLevel lib msg l s = .ok s1 := by
  induction l generalizing s with
  | nil => exact ⟨s, rfl⟩
  | cons ci rest ih =>
    have hlt := hrange ci (List.mem_cons_self _ _)
    have hget : msg.accountKeys[ci.programIDIndex]? = some msg.accountKeys[ci.programIDIndex] :=
      List.getElem?_eq_getElem hlt
    simp only [scanTopLevel, hget]
    by_cases hp : msg.accountKeys[ci.programIDIndex] = s.claimProgram
    · obtain ⟨metas, hm⟩ := hres ci (List.mem_cons_self _ _) (by rw [hget, hp])
      simp only [hp, if_true, hm]
      apply ih
      · exact fun c hc => hrange c (List.mem_cons_of_mem _ hc)
      · intro c hc hcp
        apply hres c (List.mem_cons_of_mem _ hc)
        split_ifs at hcp <;> simpa using hcp
    · simp only [hp, if_false]
      apply ih
      · exact fun c hc => hrange c (List.mem_cons_of_mem _ hc)
      · intro c hc hcp
        apply hres c (List.mem_cons_of_mem _ hc)
        split_ifs at hcp <;> simpa using hcp


/-- The top-level scan captures the last instruction of the claim program. -/
theorem scanTopLevel_capture_last (lib : Lib) (msg : Message)
    (pre post : List CompiledInstruction) (ci : CompiledInstruction) (s s1 : Service)
    (h : scanTopLevel lib msg (pre ++ ci :: post) s = .ok s1)
    (hci : msg.accountKeys[ci.programIDIndex]? = some s.claimProgram)
    (hpost : ∀ c ∈ post, msg.accountKeys[c.programIDIndex]? ≠ some s.claimProgram) :
    lib.resolveInstructionAccounts ci msg = .ok s1.claimIxAccts ∧ s1.claimIxData = ci.data := by
  rw [scanTopLevel_append] at h
  cases hp : scanTopLevel lib msg pre s with
  | error f => simp [hp] at h
  | ok sp =>
    simp only [hp] at h
    obtain ⟨-, -, hcp, -⟩ := scanTopLevel_frame lib msg pre s sp hp
    obtain ⟨prog, s0, hprog, hs0, hrest⟩ := scanTopLevel_cons_ok lib msg ci post sp s1 h
    rw [hci] at hprog
    cases hprog
    simp only [hcp, if_true] at hs0
    obtain ⟨metas, hm, rfl⟩ := hs0
    have := scanTopLevel_no_claim lib msg post _ s1 hrest (by
      intro c hc
      have := hpost c hc
      split_ifs <;> simpa [hcp] using this)
    split_ifs at this <;> (simp only at this; rw [this.1, this.2]; exact ⟨hm, rfl⟩)

/-- The nested loops of the inner scan visit the instructions of `innerInstructionList`. -/
theorem scanInner_eq_foldl (lib : Lib) (msg : Message) (m : TransactionMeta) (s : Service) :
    scanInner lib msg m.innerInstructions s =
      (innerInstructionList m).foldl (scanInnerInstruction lib msg) s := by
  unfold scanInner innerInstructionList
  rw [List.foldl_flatten, List.foldl_map]

/-- One step of the inner scan leaves the captured template unchanged. -/
theorem scanInnerInstruction_frame (lib : Lib) (msg : Message) (s : Service)
    (ici : CompiledInstruction) :
    (scanInnerInstruction lib msg s ici).wallet = s.wallet ∧
      (scanInnerInstruction lib msg s ici).cfg = s.cfg ∧
      (scanInnerInstruction lib msg s ici).claimProgram = s.claimProgram ∧
      (scanInnerInstruction lib msg s ici).claimIxAccts = s.claimIxAccts ∧
      (scanInnerInstruction lib msg s ici).claimIxData = s.claimIxData := by
  unfold scanInnerInstruction
  simp only
  split_ifs
  · split
    · exact ⟨rfl, rfl, rfl, rfl, rfl⟩
    · split <;> exact ⟨rfl, rfl, rfl, rfl, rfl⟩
  · exact ⟨rfl, rfl, rfl, rfl, rfl⟩

/-- The token program after one step of the inner scan. -/
theorem scanInnerInstruction_tokenProgram (lib : Lib) (msg : Message) (s : Service)
    (ici : CompiledInstruction) :
    (scanInnerInstruction lib msg s ici).tokenProgram =
      if isTokenProgram (lib.program msg ici.programIDIndex).1 then
        (lib.program msg ici.programIDIndex).1
      else s.tokenProgram := by
  unfold scanInnerInstruction
  simp only
  split_ifs
  · split
    · rfl
    · split <;> rfl
  · rfl

/-- The inner scan leaves the captured template unchanged. -/
theorem foldl_scanInner_frame (lib : Lib) (msg : Message) (l : List CompiledInstruction)
    (s : Service) :
    (l.foldl (scanInnerInstruction lib msg) s).wallet = s.wallet ∧
      (l.foldl (scanInnerInstruction lib msg) s).cfg = s.cfg ∧
      (l.foldl (scanInnerInstruction lib msg) s).claimProgram = s.claimProgram ∧
      (l.foldl (scanInnerInstruction lib msg) s).claimIxAccts = s.claimIxAccts ∧
      (l.foldl (scanInnerInstruction lib msg) s).claimIxData = s.claimIxData := by
  induction l generalizing s with
  | nil => exact ⟨rfl, rfl, rfl, rfl, rfl⟩
  | cons ici rest ih =>
    simp only [List.foldl_cons]
    obtain ⟨h1, h2, h3, h4, h5⟩ := ih (scanInnerInstruction lib msg s ici)
    obtain ⟨g1, g2, g3, g4, g5⟩ := scanInnerInstruction_frame lib msg s ici
    exact ⟨h1.trans g1, h2.trans g2, h3.trans g3, h4.trans g4, h5.trans g5⟩

/-- After the inner scan the token program is unchanged and no inner instruction is of a
token program, or it is a well-known token program id. -/
theorem foldl_scanInner_token (lib : Lib) (msg : Message) (l : List CompiledInstruction)
    (s : Service) :
    ((l.foldl (scanInnerInstruction lib msg) s).tokenProgram = s.tokenProgram ∧
        ∀ ici ∈ l, isTokenProgram (lib.program msg ici.programIDIndex).1 = false) ∨
      (isTokenProgram (l.foldl (scanInnerInstruction lib msg) s).tokenProgram = true ∧
        ∃ ici ∈ l, isTokenProgram (lib.program msg ici.programIDIndex).1 = true) := by
  induction l generalizing s with
  | nil => left; exact ⟨rfl, by simp⟩
  | cons ici rest ih =>
    simp only [List.foldl_cons]
    have htp := scanInnerInstruction_tokenProgram lib msg s ici
    rcases ih (scanInnerInstruction lib msg s ici) with ⟨heq, hnone⟩ | ⟨htok, c, hc, hct⟩
    · cases ht : isTokenProgram (lib.program msg ici.programIDIndex).1
      · left
        simp only [ht, Bool.false_eq_true, if_false] at htp
        refine ⟨heq.trans htp, ?_⟩
        intro c hc
        rcases List.mem_cons.mp hc with rfl | hc
        · exact ht
        · exact hnone c hc
      · right
        simp only [ht, if_true] at htp
        rw [heq, htp]
        exact ⟨ht, ici, List.mem_cons_self _ _, ht⟩
    · right
      exact ⟨htok, c, List.mem_cons_of_mem _ hc, hct⟩

/-- The fallback only changes the mint. -/
theorem fallbackMint_frame (txMeta : Option TransactionMeta) (s : Service) :
    (fallbackMint txMeta s).wallet = s.wallet ∧ (fallbackMint txMeta s).cfg = s.cfg ∧
      (fallbackMint txMeta s).claimProgram = s.claimProgram ∧
      (fallbackMint txMeta s).claimIxAccts = s.claimIxAccts ∧
      (fallbackMint txMeta s).claimIxData = s.claimIxData ∧
      (fallbackMint txMeta s).tokenProgram = s.tokenProgram := by
  unfold fallbackMint
  split_ifs
  · split
    · exact ⟨rfl, rfl, rfl, rfl, rfl, rfl⟩
    · split <;> exact ⟨rfl, rfl, rfl, rfl, rfl, rfl⟩
  · exact ⟨rfl, rfl, rfl, rfl, rfl, rfl⟩

/-- The guarded inner scan leaves the captured template unchanged. -/
theorem scanInnerIfUnknown_frame (lib : Lib) (msg : Message)
    (txMeta : Option TransactionMeta) (s : Service) :
    (scanInnerIfUnknown lib msg txMeta s).wallet = s.wallet ∧
      (scanInnerIfUnknown lib msg txMeta s).cfg = s.cfg ∧
      (scanInnerIfUnknown lib msg txMeta s).claimProgram = s.claimProgram ∧
      (scanInnerIfUnknown lib msg txMeta s).claimIxAccts = s.claimIxAccts ∧
      (scanInnerIfUnknown lib msg txMeta s).claimIxData = s.claimIxData := by
  unfold scanInnerIfUnknown
  split
  · split_ifs
    · rw [scanInner_eq_foldl]
      exact foldl_scanInner_frame lib msg _ s
    · exact ⟨rfl, rfl, rfl, rfl, rfl⟩
  · exact ⟨rfl, rfl, rfl, rfl, rfl⟩

/-- The token program after the guarded inner scan is zero exactly when it was zero before
and no scanned inner instruction is of a well-known token program. -/
theorem scanInnerIfUnknown_token_zero (lib : Lib) (msg : Message)
    (txMeta : Option TransactionMeta) (s : Service) :
    (scanInnerIfUnknown lib msg txMeta s).tokenProgram.IsZero = true ↔
      s.tokenProgram.IsZero = true ∧
        ∀ m, txMeta = some m → ∀ inner ∈ m.innerInstructions, ∀ ici ∈ inner.instructions,
          isTokenProgram (lib.program msg ici.programIDIndex).1 = false := by
  unfold scanInnerIfUnknown
  cases txMeta with
  | none => simp
  | some m =>
    simp only [Option.some.injEq, forall_eq']
    cases hz : s.tokenProgram.IsZero
    · simp [hz]
    · simp only [if_true, true_and]
      rw [scanInner_eq_foldl]
      have hmem : ∀ ici, ici ∈ innerInstructionList m ↔
          ∃ inner ∈ m.innerInstructions, ici ∈ inner.instructions := by
        intro ici
        simp [innerInstructionList, List.mem_flatten]
      rcases foldl_scanInner_token lib msg (innerInstructionList m) s with
        ⟨heq, hnone⟩ | ⟨htok, -⟩
      · rw [heq, hz]
        simp only [true_iff]
        intro inner hin ici hici
        exact hnone ici ((hmem ici).mpr ⟨inner, hin, hici⟩)
      · have hnz := isTokenProgram_ne_zero _ htok
        rw [hnz]
        simp only [Bool.false_eq_true, false_iff, not_forall]
        obtain ⟨-, c, hc, hct⟩ := foldl_scanInner_token lib msg (innerInstructionList m) s
          |>.resolve_left (by
            rintro ⟨heq, -⟩
            rw [heq, hz] at hnz
            cases hnz)
        obtain ⟨inner, hin, hici⟩ := (hmem c).mp hc
        exact ⟨inner, hin, c, hici, by simp [hct]⟩

/-- What a successful run of `learnFromResolved` returns. -/
theorem learnFromResolved_ok (lib : Lib) (s : Service) (msg : Message)
    (txMeta : Option TransactionMeta) (sr : Service)
    (h : learnFromResolved lib s msg txMeta = .ok sr) :
    ∃ s1, scanTopLevel lib msg msg.instructions s = .ok s1 ∧
      sr = fallbackMint txMeta (scanInnerIfUnknown lib msg txMeta s1) ∧
      sr.claimIxAccts ≠ [] ∧ sr.claimIxData ≠ [] ∧
      ¬ (sr.tokenProgram.IsZero = true ∧ sr.cfg.claim.tokenProgramID = "") := by
  unfold learnFromResolved at h
  split at h
  · cases h
  · rename_i s1 hs1
    simp only at h
    split_ifs at h with h1 h2
    cases h
    refine ⟨s1, hs1, rfl, ?_, ?_, h2⟩
    · intro h0
      exact h1 (Or.inl (by rw [h0]; rfl))
    · intro h0
      exact h1 (Or.inr (by rw [h0]; rfl))

/-- The outcome of `learnFromResolved` once the top-level scan has succeeded. -/
theorem learnFromResolved_of_scan (lib : Lib) (s s1 : Service) (msg : Message)
    (txMeta : Option TransactionMeta)
    (h : scanTopLevel lib msg msg.instructions s = .ok s1) :
    learnFromResolved lib s msg txMeta =
      if s1.claimIxAccts = [] ∨ s1.claimIxData = [] then
        .error (.error errNoClaimInstruction)
      else if (scanInnerIfUnknown lib msg txMeta s1).tokenProgram.IsZero = true ∧
          s.cfg.claim.tokenProgramID = "" then
        .error (.error errNoTokenProgram)
      else .ok (fallbackMint txMeta (scanInnerIfUnknown lib msg txMeta s1)) := by
  obtain ⟨-, hcfg, -, -⟩ := scanTopLevel_frame lib msg _ s s1 h
  obtain ⟨-, f2, -, f4, f5, f6⟩ := fallbackMint_frame txMeta (scanInnerIfUnknown lib msg txMeta s1)
  obtain ⟨-, g2, -, g4, g5⟩ := scanInnerIfUnknown_frame lib msg txMeta s1
  unfold learnFromResolved
  simp only [h, f2, f4, f5, f6, g2, g4, g5, hcfg, List.length_eq_zero]


/-- The service `NewService` hands to `learnFromReference`: nothing learned yet, the token
program zero unless an override is configured. -/
theorem parseIDs_ok (lib : Lib) (wallet : List Nat) (cfg : Config) (s : Service)
    (h : parseIDs lib wallet cfg = .ok s) :
    s.wallet = wallet ∧ s.cfg = cfg ∧
      s.claimProgram = (lib.publicKeyFromBase58 cfg.claim.programID).1 ∧
      s.claimIxData = [] ∧ s.claimIxAccts = [] ∧ s.mint = PublicKey.zero ∧
      (cfg.claim.tokenProgramID = "" → s.tokenProgram = PublicKey.zero) := by
  unfold parseIDs at h
  split at h
  · cases h
  · rename_i cp hcp
    simp only at h
    split_ifs at h with hne
    · split at h
      · cases h
      · cases h
        exact ⟨rfl, rfl, by rw [hcp], rfl, rfl, rfl, fun h0 => absurd h0 hne⟩
    · cases h
      exact ⟨rfl, rfl, by rw [hcp], rfl, rfl, rfl, fun _ => rfl⟩

/-- A successful `learnFromReference` fetched, decoded and resolved a message and learned
from it. -/
theorem learnFromReference_ok (lib : Lib) (rpc : Rpc) (s : Service) (sig : String)
    (sr : Service) (h : learnFromReference lib rpc s sig = .ok sr) :
    ∃ signature res msg0 msg, lib.signatureFromBase58 (lib.trimSpace sig) = .ok signature ∧
      rpc.getTransaction signature = .ok res ∧
      lib.decodeTransaction res.transaction = .ok msg0 ∧
      resolveAddressTables lib rpc msg0 = .ok msg ∧
      learnFromResolved lib s msg res.txMeta = .ok sr := by
  unfold learnFromReference at h
  split at h
  · cases h
  · rename_i signature hsig
    split at h
    · cases h
    · rename_i res hres
      split at h
      · cases h
      · rename_i msg0 hdec
        split at h
        · cases h
        · rename_i msg hmsg
          exact ⟨signature, res, msg0, msg, hsig, hres, hdec, hmsg, h⟩

/-- The call `learnFromReference` fails while fetching, or continues as `learnFromResolved` on
the resolved message. -/
theorem learnFromReference_error_or (lib : Lib) (rpc : Rpc) (s : Service) (sig : String) :
    (∃ f, learnFromReference lib rpc s sig = .error f) ∨
      ∃ signature res msg0 msg, lib.signatureFromBase58 (lib.trimSpace sig) = .ok signature ∧
        rpc.getTransaction signature = .ok res ∧
        lib.decodeTransaction res.transaction = .ok msg0 ∧
        resolveAddressTables lib rpc msg0 = .ok msg ∧
        learnFromReference lib rpc s sig = learnFromResolved lib s msg res.txMeta := by
  unfold learnFromReference
  split
  · exact Or.inl ⟨_, rfl⟩
  · rename_i signature hsig
    split
    · exact Or.inl ⟨_, rfl⟩
    · rename_i res hres
      split
      · exact Or.inl ⟨_, rfl⟩
      · rename_i msg0 hdec
        split
        · exact Or.inl ⟨_, rfl⟩
        · rename_i msg hmsg
          exact Or.inr ⟨signature, res, msg0, msg, hsig, hres, hdec, hmsg, rfl⟩

/-- Learning fails when nothing was captured before and no top-level instruction is of the
claim program. -/
theorem learnFromResolved_no_claim (lib : Lib) (s : Service) (msg : Message)
    (txMeta : Option TransactionMeta)
    (hfresh : s.claimIxData = [] ∨ s.claimIxAccts = [])
    (hno : ∀ ci ∈ msg.instructions, msg.accountKeys[ci.programIDIndex]? ≠ some s.claimProgram) :
    (∃ f, learnFromResolved lib s msg txMeta = .error f) ∧
      ((∀ ci ∈ msg.instructions, ci.programIDIndex < msg.accountKeys.length) →
        learnFromResolved lib s msg txMeta = .error (.error errNoClaimInstruction)) := by
  have key : ∀ s1, scanTopLevel lib msg msg.instructions s = .ok s1 →
      learnFromResolved lib s msg txMeta = .error (.error errNoClaimInstruction) := by
    intro s1 h1
    obtain ⟨ha, hd⟩ := scanTopLevel_no_claim lib msg _ s s1 h1 hno
    rw [learnFromResolved_of_scan lib s s1 msg txMeta h1, if_pos]
    rcases hfresh with h | h
    · exact Or.inr (hd.trans h)
    · exact Or.inl (ha.trans h)
  constructor
  · cases h1 : scanTopLevel lib msg msg.instructions s with
    | error f => exact ⟨f, by simp [learnFromResolved, h1]⟩
    | ok s1 => exact ⟨_, key s1 h1⟩
  · intro hrange
    obtain ⟨s1, h1⟩ := scanTopLevel_ok lib msg msg.instructions s hrange
      (fun ci hci hp => absurd hp (hno ci hci))
    exact key s1 h1


/-- Every transaction `Claim` sends was simulated in the same attempt. -/
theorem Claim_send_simulated (lib : Lib) (rpc : Rpc) (s : Service) (opts : ClaimOptions)
    (tx : Transaction) (h : RpcCall.sendTransaction tx ∈ (Claim lib rpc s opts).2) :
    RpcCall.simulateTransaction tx ∈ (Claim lib rpc s opts).2 := by
  have hpre := preamble_reads lib rpc s
  have hnosend : ∀ t, RpcCall.sendTransaction t ∉ preamble lib rpc s :=
    fun t ht => (hpre _ ht).2.1 t rfl
  rcases Claim_run lib rpc s opts with
    ⟨pre, e, hsub, hrun⟩ | ⟨tx0, e, -, hrun⟩ | ⟨tx0, sim0, err0, -, -, hrun⟩ |
    ⟨tx0, sim0, -, -, -, hrun⟩ | ⟨tx0, sim0, polls, -, -, -, hpolls, hrun⟩
  · rw [hrun] at h
    exact absurd (hsub _ h) (hnosend _)
  · rw [hrun] at h
    simp only [List.mem_append, List.mem_singleton] at h
    rcases h with h | h
    · exact absurd h (hnosend _)
    · cases h
  · rw [hrun] at h
    simp only [List.mem_append, List.mem_singleton] at h
    rcases h with h | h
    · exact absurd h (hnosend _)
    · cases h
  · rw [hrun] at h
    simp only [List.mem_append, List.mem_singleton] at h
    rcases h with h | h
    · exact absurd h (hnosend _)
    · cases h
  · rw [hrun] at h ⊢
    simp only [List.mem_append, List.mem_cons] at h ⊢
    rcases h with h | h | h | h
    · exact absurd h (hnosend _)
    · cases h
    · cases h
      exact Or.inr (Or.inl rfl)
    · obtain ⟨sig, hc⟩ := hpolls _ h
      cases hc

/-- The claim instruction differs from every holding-account creation instruction when
its payload is not empty. -/
theorem mem_buildInstructions_create (lib : Lib) (rpc : Rpc) (s : Service)
    (hdata : s.claimIxData ≠ []) (accounts : List AccountMeta) :
    Instruction.generic SPLAssociatedTokenAccountProgramID accounts [] ∈
        (buildInstructions lib rpc s).1 ↔
      (s.mint.IsZero = false ∧ accountMissing (rpc.getAccountInfo (ataAddress lib s)) = true) ∧
        Instruction.generic SPLAssociatedTokenAccountProgramID accounts [] =
          createATAInstruction lib s := by
  rw [buildInstructions_eq]
  have hclaim : Instruction.generic SPLAssociatedTokenAccountProgramID accounts [] ≠
      Instruction.generic s.claimProgram s.claimIxAccts s.claimIxData := by
    intro h
    injection h with _ _ h3
    exact hdata h3.symm
  by_cases h1 : s.cfg.fees.computeUnitLimit > 0 <;>
    by_cases h2 : s.cfg.fees.priorityMicrolamports > 0 <;>
    by_cases h3 : (s.mint.IsZero = false ∧
        accountMissing (rpc.getAccountInfo (ataAddress lib s)) = true) <;>
    simp [h1, h2, h3, hclaim]

/-- C3 (as stated, refuted): for the sample template whose reward mint is unset, the RPC
collaborator reports the holding account absent, yet the built instruction list holds no
creation instruction. -/
theorem provisioning_skipped_when_mint_unset :
    ¬ (createATAInstruction Sample.lib Sample.serviceNoMint ∈
          (buildInstructions Sample.lib Sample.rpc Sample.serviceNoMint).1 ↔
        accountMissing
          (Sample.rpc.getAccountInfo (ataAddress Sample.lib Sample.serviceNoMint)) = true) := by
  decide

/-- C3 (amended): for every template with a non-empty payload, wallet and fee
configuration: when the learned reward mint is set, exactly one `GetAccountInfo` pre-check
is made on the derived holding account and the built instruction list contains the
creation instruction if and only if that pre-check reports the account missing (no
result, which includes a failed check, no value, or zero lamports); when the pre-check
reports the account present with a balance, no creation instruction is emitted, however
often the list is built; when the learned mint is unset, no pre-check is made and no
creation instruction is emitted. -/
theorem provisioning_iff_account_missing (lib : Lib) (rpc : Rpc) (s : Service)
    (hdata : s.claimIxData ≠ []) :
    (accountMissing (rpc.getAccountInfo (ataAddress lib s)) = true ↔
        (rpc.getAccountInfo (ataAddress lib s)).1 = none ∨
          (∃ a, (rpc.getAccountInfo (ataAddress lib s)).1 = some a ∧ a.value = none) ∨
          (∃ a v, (rpc.getAccountInfo (ataAddress lib s)).1 = some a ∧ a.value = some v ∧
            v.lamports = 0)) ∧
      (s.mint.IsZero = false →
        (createATAInstruction lib s ∈ (buildInstructions lib rpc s).1 ↔
            accountMissing (rpc.getAccountInfo (ataAddress lib s)) = true) ∧
          (buildInstructions lib rpc s).2 = [RpcCall.getAccountInfo (ataAddress lib s)]) ∧
      (accountMissing (rpc.getAccountInfo (ataAddress lib s)) = false →
        ∀ accounts, Instruction.generic SPLAssociatedTokenAccountProgramID accounts [] ∉
          (buildInstructions lib rpc s).1) ∧
      (s.mint.IsZero = true →
        (∀ accounts, Instruction.generic SPLAssociatedTokenAccountProgramID accounts [] ∉
            (buildInstructions lib rpc s).1) ∧
          (buildInstructions lib rpc s).2 = []) := by
  refine ⟨accountMissing_iff _, ?_, ?_, ?_⟩
  · intro hz
    constructor
    · have := mem_buildInstructions_create lib rpc s hdata
        [ { publicKey := lib.publicKey s.wallet, isSigner := true, isWritable := true },
          { publicKey := ataAddress lib s, isSigner := false, isWritable := true },
          { publicKey := lib.publicKey s.wallet, isSigner := false, isWritable := false },
          { publicKey := s.mint, isSigner := false, isWritable := false },
          { publicKey := SystemProgramID, isSigner := false, isWritable := false },
          { publicKey := ataTokenProgram lib s, isSigner := false, isWritable := false } ]
      unfold createATAInstruction at this ⊢
      rw [this]
      simp [hz]
    · rw [buildInstructions_calls, hz]
      rfl
  · intro hm accounts hmem
    rw [mem_buildInstructions_create lib rpc s hdata, hm] at hmem
    exact absurd hmem.1.2 (by simp)
  · intro hz
    constructor
    · intro accounts hmem
      rw [mem_buildInstructions_create lib rpc s hdata, hz] at hmem
      exact absurd hmem.1.1 (by simp)
    · rw [buildInstructions_calls, hz]
      rfl

/-- C3 witness: the sample template (mint known) against a collaborator reporting the
holding account absent gets the creation instruction; against one reporting it funded,
none. -/
theorem provisioning_iff_account_missing_witness :
    createATAInstruction Sample.lib Sample.service ∈
        (buildInstructions Sample.lib Sample.rpc Sample.service).1 ∧
      createATAInstruction Sample.lib Sample.service ∉
        (buildInstructions Sample.lib Sample.rpcFunded Sample.service).1 :=
  ⟨((provisioning_iff_account_missing Sample.lib Sample.rpc Sample.service
      (by decide)).2.1 (by decide)).1.mpr (by decide),
    (provisioning_iff_account_missing Sample.lib Sample.rpcFunded Sample.service
      (by decide)).2.2.1 (by decide) _⟩

/-- C4: for every template and fee configuration the built instruction list is, in this
order, the compute-unit-limit instruction if `ComputeUnitLimit > 0`, the
compute-unit-price instruction if `PriorityMicrolamports > 0`, the holding-account
creation instruction if emitted, and the claim instruction; the claim instruction is
always last and carries exactly the template's program id, account metas and payload,
whatever the wallet, the library, the RPC responses and the fee settings; and every
transaction `Claim` simulates or sends is assembled from this list. -/
theorem buildInstructions_order (lib : Lib) (rpc : Rpc) (s : Service) :
    (buildInstructions lib rpc s).1 =
        (if s.cfg.fees.computeUnitLimit > 0 then
            [Instruction.setComputeUnitLimit s.cfg.fees.computeUnitLimit] else []) ++
        (if s.cfg.fees.priorityMicrolamports > 0 then
            [Instruction.setComputeUnitPrice s.cfg.fees.priorityMicrolamports] else []) ++
        (if s.mint.IsZero = false ∧
              accountMissing (rpc.getAccountInfo (ataAddress lib s)) = true
            then [createATAInstruction lib s] else []) ++
        [Instruction.generic s.claimProgram s.claimIxAccts s.claimIxData] ∧
      (buildInstructions lib rpc s).1.getLast? =
        some (Instruction.generic s.claimProgram s.claimIxAccts s.claimIxData) ∧
      (∀ (lib2 : Lib) (rpc2 : Rpc) (s2 : Service),
        s2.claimProgram = s.claimProgram → s2.claimIxAccts = s.claimIxAccts →
        s2.claimIxData = s.claimIxData →
        (buildInstructions lib2 rpc2 s2).1.getLast? = (buildInstructions lib rpc s).1.getLast?) ∧
      (∀ opts tx,
        RpcCall.simulateTransaction tx ∈ (Claim lib rpc s opts).2 ∨
          RpcCall.sendTransaction tx ∈ (Claim lib rpc s opts).2 →
        Assembled lib rpc s tx) := by
  have hlast : ∀ (l : Lib) (r : Rpc) (t : Service), (buildInstructions l r t).1.getLast? =
      some (Instruction.generic t.claimProgram t.claimIxAccts t.claimIxData) := by
    intro l r t
    rw [buildInstructions_eq]
    simp
  refine ⟨buildInstructions_eq lib rpc s, hlast lib rpc s, ?_, ?_⟩
  · intro lib2 rpc2 s2 h1 h2 h3
    rw [hlast, hlast, h1, h2, h3]
  · intro opts tx h
    rcases h with h | h
    · exact Claim_simulates_assembled lib rpc s opts tx h
    · exact Claim_simulates_assembled lib rpc s opts tx (Claim_send_simulated lib rpc s opts tx h)

/-- C4 witness: the list built for the sample template. -/
theorem buildInstructions_order_witness :
    (buildInstructions Sample.lib Sample.rpc Sample.service).1 =
        [ Instruction.setComputeUnitLimit 200000, Instruction.setComputeUnitPrice 1000,
          createATAInstruction Sample.lib Sample.service,
          Instruction.generic Sample.claimProgramID Sample.service.claimIxAccts
            [0xAA, 0xBB, 0xCC] ] ∧
      (buildInstructions Sample.lib Sample.rpc Sample.service).1.getLast? =
        some (Instruction.generic Sample.service.claimProgram Sample.service.claimIxAccts
          Sample.service.claimIxData) :=
  ⟨by decide, (buildInstructions_order Sample.lib Sample.rpc Sample.service).2.1⟩


/-- C5: for every resolved reference message whose top-level instruction list contains
exactly one instruction of the target program (all program indices resolving), whose
payload is not empty and whose account metas resolve to a non-empty list, and for which
a token program is available (detected at the top level, detected in an inner
instruction, or configured), learning succeeds and the learned template is the target
program, that instruction's payload bytes and its resolved account metas, in order. -/
theorem learn_captures_template (lib : Lib) (s : Service) (msg : Message)
    (txMeta : Option TransactionMeta) (pre post : List CompiledInstruction)
    (ci : CompiledInstruction) (metas : List AccountMeta)
    (hsplit : msg.instructions = pre ++ ci :: post)
    (hrange : ∀ c ∈ msg.instructions, c.programIDIndex < msg.accountKeys.length)
    (hci : msg.accountKeys[ci.programIDIndex]? = some s.claimProgram)
    (hpre : ∀ c ∈ pre, msg.accountKeys[c.programIDIndex]? ≠ some s.claimProgram)
    (hpost : ∀ c ∈ post, msg.accountKeys[c.programIDIndex]? ≠ some s.claimProgram)
    (hdata : ci.data ≠ [])
    (hmetas : lib.resolveInstructionAccounts ci msg = .ok metas) (hne : metas ≠ [])
    (htoken :
      (∃ c ∈ msg.instructions, ∃ prog, msg.accountKeys[c.programIDIndex]? = some prog ∧
          isTokenProgram prog = true) ∨
        (∃ m, txMeta = some m ∧ ∃ inner ∈ m.innerInstructions, ∃ ici ∈ inner.instructions,
          isTokenProgram (lib.program msg ici.programIDIndex).1 = true) ∨
        s.cfg.claim.tokenProgramID ≠ "") :
    ∃ sr, learnFromResolved lib s msg txMeta = .ok sr ∧ sr.claimProgram = s.claimProgram ∧
      sr.claimIxData = ci.data ∧ sr.claimIxAccts = metas := by
  obtain ⟨s1, h1⟩ := scanTopLevel_ok lib msg msg.instructions s hrange (by
    intro c hc hp
    rw [hsplit] at hc
    rcases List.mem_append.mp hc with hc | hc
    · exact absurd hp (hpre c hc)
    · rcases List.mem_cons.mp hc with rfl | hc
      · exact ⟨metas, hmetas⟩
      · exact absurd hp (hpost c hc))
  have hcap := scanTopLevel_capture_last lib msg pre post ci s s1 (hsplit ▸ h1) hci hpost
  rw [hmetas] at hcap
  obtain ⟨hacc, hd⟩ := hcap
  have hacc : s1.claimIxAccts = metas := by
    injection hacc with h
    exact h.symm
  obtain ⟨-, -, hprog, -⟩ := scanTopLevel_frame lib msg _ s s1 h1
  obtain ⟨-, -, f3, f4, f5, -⟩ := fallbackMint_frame txMeta (scanInnerIfUnknown lib msg txMeta s1)
  obtain ⟨-, -, g3, g4, g5⟩ := scanInnerIfUnknown_frame lib msg txMeta s1
  have hnot : ¬ ((scanInnerIfUnknown lib msg txMeta s1).tokenProgram.IsZero = true ∧
      s.cfg.claim.tokenProgramID = "") := by
    rintro ⟨hz, hcfg⟩
    rw [scanInnerIfUnknown_token_zero] at hz
    obtain ⟨hz1, hinner⟩ := hz
    rcases htoken with ⟨c, hc, prog, hcp, htok⟩ | ⟨m, hm, inner, hin, ici, hici, htok⟩ | hcfgne
    · rcases scanTopLevel_token lib msg _ s s1 h1 with ⟨-, hnone⟩ | ⟨ht, -⟩
      · rw [hnone c hc prog hcp] at htok
        cases htok
      · rw [isTokenProgram_ne_zero _ ht] at hz1
        cases hz1
    · rw [hinner m hm inner hin ici hici] at htok
      cases htok
    · exact hcfgne hcfg
  refine ⟨fallbackMint txMeta (scanInnerIfUnknown lib msg txMeta s1), ?_, ?_, ?_, ?_⟩
  · rw [learnFromResolved_of_scan lib s s1 msg txMeta h1, if_neg, if_neg hnot]
    rw [hacc, hd]
    exact fun h => h.elim hne hdata
  · rw [f3, g3, hprog]
  · rw [f5, g5, hd]
  · rw [f4, g4, hacc]

/-- C5 witness: the sample reference message holds one claim-program instruction with
payload `0xAABBCC` and three accounts; the learned template has exactly that payload and
those three account metas. -/
theorem learn_captures_template_witness :
    ∃ sr, learnFromResolved Sample.lib
          { emptyService Sample.walletBytes Sample.cfg with
            claimProgram := Sample.claimProgramID }
          Sample.msg (some Sample.txMeta) = .ok sr ∧
        sr.claimProgram = Sample.claimProgramID ∧
        sr.claimIxData = [0xAA, 0xBB, 0xCC] ∧
        sr.claimIxAccts =
          [ { publicKey := Sample.walletKey, isSigner := true, isWritable := true },
            { publicKey := Sample.vaultKey, isSigner := false, isWritable := true },
            { publicKey := Sample.mintKey, isSigner := false, isWritable := true } ] :=
  learn_captures_template Sample.lib
    { emptyService Sample.walletBytes Sample.cfg with claimProgram := Sample.claimProgramID }
    Sample.msg (some Sample.txMeta) []
    [ { programIDIndex := 4, accounts := [1, 0], data := [3] } ]
    { programIDIndex := 3, accounts := [0, 1, 2], data := [0xAA, 0xBB, 0xCC] }
    [ { publicKey := Sample.walletKey, isSigner := true, isWritable := true },
      { publicKey := Sample.vaultKey, isSigner := false, isWritable := true },
      { publicKey := Sample.mintKey, isSigner := false, isWritable := true } ]
    rfl (by decide) (by decide) (by decide) (by decide) (by decide) rfl (by decide)
    (Or.inl (by decide))

/-- C6: on the service as `NewService` prepares it, `learnFromReference` fails whenever
no top-level instruction of the resolved message has the target program as program id,
whatever the inner instructions are (with the error `could not extract claim
instruction ...` when the program indices of the message resolve); more generally it
fails with that error whenever the payload or the account list captured by the top-level
scan is empty; hence a template returned by `learnFromReference` or `NewService` has a
non-empty payload and a non-empty account list. -/
theorem learn_fails_without_claim_instruction (lib : Lib) (rpc : Rpc) (wallet : List Nat)
    (cfg : Config) :
    (∀ s msg txMeta, parseIDs lib wallet cfg = .ok s →
        (∀ ci ∈ msg.instructions,
          msg.accountKeys[ci.programIDIndex]? ≠ some s.claimProgram) →
        (∃ f, learnFromResolved lib s msg txMeta = .error f) ∧
          ((∀ ci ∈ msg.instructions, ci.programIDIndex < msg.accountKeys.length) →
            learnFromResolved lib s msg txMeta = .error (.error errNoClaimInstruction))) ∧
      (∀ s sig, parseIDs lib wallet cfg = .ok s →
        (∀ signature res msg0 msg, lib.signatureFromBase58 (lib.trimSpace sig) = .ok signature →
          rpc.getTransaction signature = .ok res →
          lib.decodeTransaction res.transaction = .ok msg0 →
          resolveAddressTables lib rpc msg0 = .ok msg →
          ∀ ci ∈ msg.instructions,
            msg.accountKeys[ci.programIDIndex]? ≠ some s.claimProgram) →
        ∃ f, learnFromReference lib rpc s sig = .error f) ∧
      (∀ s s1 msg txMeta, scanTopLevel lib msg msg.instructions s = .ok s1 →
        s1.claimIxData = [] ∨ s1.claimIxAccts = [] →
        learnFromResolved lib s msg txMeta = .error (.error errNoClaimInstruction)) ∧
      (∀ s sig sr, learnFromReference lib rpc s sig = .ok sr →
        sr.claimIxData ≠ [] ∧ sr.claimIxAccts ≠ []) ∧
      (∀ sr, NewService lib rpc wallet cfg = .ok sr →
        sr.claimIxData ≠ [] ∧ sr.claimIxAccts ≠ []) := by
  have hinv : ∀ s sig sr, learnFromReference lib rpc s sig = .ok sr →
      sr.claimIxData ≠ [] ∧ sr.claimIxAccts ≠ [] := by
    intro s sig sr h
    obtain ⟨_, res, _, msg, -, -, -, -, hl⟩ := learnFromReference_ok lib rpc s sig sr h
    obtain ⟨_, -, -, ha, hd, -⟩ := learnFromResolved_ok lib s msg res.txMeta sr hl
    exact ⟨hd, ha⟩
  refine ⟨?_, ?_, ?_, hinv, ?_⟩
  · intro s msg txMeta hs hno
    obtain ⟨-, -, -, hd, -, -, -⟩ := parseIDs_ok lib wallet cfg s hs
    exact learnFromResolved_no_claim lib s msg txMeta (Or.inl hd) hno
  · intro s sig hs hno
    obtain ⟨-, -, -, hd, -, -, -⟩ := parseIDs_ok lib wallet cfg s hs
    rcases learnFromReference_error_or lib rpc s sig with hf |
      ⟨signature, res, msg0, msg, h1, h2, h3, h4, heq⟩
    · exact hf
    · rw [heq]
      exact (learnFromResolved_no_claim lib s msg res.txMeta (Or.inl hd)
        (hno signature res msg0 msg h1 h2 h3 h4)).1
  · intro s s1 msg txMeta h1 hempty
    rw [learnFromResolved_of_scan lib s s1 msg txMeta h1, if_pos hempty.symm]
  · intro sr h
    unfold NewService at h
    split at h
    · cases h
    · exact hinv _ _ sr h

/-- C6 witness: the sample message without a top-level claim-program instruction, whose
metadata holds such an instruction as an inner instruction only, is rejected. -/
theorem learn_fails_without_claim_instruction_witness :
    learnFromResolved Sample.lib
        { emptyService Sample.walletBytes Sample.cfg with
          claimProgram := Sample.claimProgramID }
        Sample.msgNoClaim (some Sample.txMeta) =
      .error (.error "could not extract claim instruction from reference transaction") :=
  ((learn_fails_without_claim_instruction Sample.lib Sample.rpc Sample.walletBytes
      Sample.cfg).1 _ Sample.msgNoClaim (some Sample.txMeta) rfl (by decide)).2 (by decide)


/-- C7: on the service as `NewService` prepares it, for every resolved reference message
from which the top-level scan captured a claim instruction with non-empty payload and
accounts, learning fails with the error `could not detect token program id; ...` if and
only if no top-level instruction and no inner instruction has one of the two well-known
token program ids as program id and no token-program override is configured; with an
override configured (and accepted by `NewService`), learning succeeds. -/
theorem learn_token_program_unknown_iff (lib : Lib) (wallet : List Nat) (cfg : Config)
    (s s1 : Service) (msg : Message) (txMeta : Option TransactionMeta)
    (hs : parseIDs lib wallet cfg = .ok s)
    (hscan : scanTopLevel lib msg msg.instructions s = .ok s1)
    (haccts : s1.claimIxAccts ≠ []) (hdata : s1.claimIxData ≠ []) :
    (learnFromResolved lib s msg txMeta = .error (.error errNoTokenProgram) ↔
        (∀ ci ∈ msg.instructions, ∀ prog, msg.accountKeys[ci.programIDIndex]? = some prog →
          isTokenProgram prog = false) ∧
        (∀ m, txMeta = some m → ∀ inner ∈ m.innerInstructions, ∀ ici ∈ inner.instructions,
          isTokenProgram (lib.program msg ici.programIDIndex).1 = false) ∧
        cfg.claim.tokenProgramID = "") ∧
      (cfg.claim.tokenProgramID ≠ "" → ∃ sr, learnFromResolved lib s msg txMeta = .ok sr) := by
  obtain ⟨-, hcfg, -, -, -, -, hzero⟩ := parseIDs_ok lib wallet cfg s hs
  have hrun := learnFromResolved_of_scan lib s s1 msg txMeta hscan
  rw [if_neg (fun h => h.elim haccts hdata), hcfg] at hrun
  have hiff := scanInnerIfUnknown_token_zero lib msg txMeta s1
  constructor
  · constructor
    · intro h
      rw [hrun] at h
      split_ifs at h with hc
      obtain ⟨hz, hempty⟩ := hc
      obtain ⟨hz1, hinner⟩ := hiff.mp hz
      refine ⟨?_, hinner, hempty⟩
      rcases scanTopLevel_token lib msg _ s s1 hscan with ⟨-, hnone⟩ | ⟨ht, -⟩
      · exact hnone
      · rw [isTokenProgram_ne_zero _ ht] at hz1
        cases hz1
    · rintro ⟨htop, hinner, hempty⟩
      have hz1 : s1.tokenProgram.IsZero = true := by
        rcases scanTopLevel_token lib msg _ s s1 hscan with ⟨heq, -⟩ | ⟨ht, c, hc, hcp⟩
        · rw [heq, hzero hempty]
          rfl
        · rw [htop c hc _ hcp] at ht
          cases ht
      rw [hrun, if_pos ⟨hiff.mpr ⟨hz1, hinner⟩, hempty⟩]
  · intro hne
    rw [hrun, if_neg (fun h => hne h.2)]
    exact ⟨_, rfl⟩

/-- C7 witness: the sample message with only the claim instruction, without metadata and
without an override, fails with the token-program error. -/
theorem learn_token_program_unknown_iff_witness :
    learnFromResolved Sample.lib
        { emptyService Sample.walletBytes Sample.cfg with
          claimProgram := Sample.claimProgramID }
        Sample.msgClaimOnly none =
      .error (.error "could not detect token program id; set claim.token_program_id") :=
  (learn_token_program_unknown_iff Sample.lib Sample.walletBytes Sample.cfg
      { emptyService Sample.walletBytes Sample.cfg with claimProgram := Sample.claimProgramID }
      { emptyService Sample.walletBytes Sample.cfg with
        claimProgram := Sample.claimProgramID,
        claimIxData := [0xAA, 0xBB, 0xCC],
        claimIxAccts :=
          [ { publicKey := Sample.walletKey, isSigner := true, isWritable := true },
            { publicKey := Sample.vaultKey, isSigner := false, isWritable := true },
            { publicKey := Sample.mintKey, isSigner := false, isWritable := true } ] }
      Sample.msgClaimOnly none rfl rfl (by decide) (by decide)).1.mpr
    ⟨(by
      intro ci hci prog hprog
      simp only [Sample.msgClaimOnly, List.mem_singleton] at hci
      subst hci
      simp only [Sample.msgClaimOnly] at hprog
      cases hprog
      decide),
      (by intro m hm; cases hm), rfl⟩

/-- With an override configured, the service `NewService` hands to `learnFromReference`
holds the parsed override as token program. -/
theorem parseIDs_override (lib : Lib) (wallet : List Nat) (cfg : Config) (s : Service)
    (h : parseIDs lib wallet cfg = .ok s) (hne : cfg.claim.tokenProgramID ≠ "") :
    s.tokenProgram = (lib.publicKeyFromBase58 cfg.claim.tokenProgramID).1 ∧
      (lib.publicKeyFromBase58 cfg.claim.tokenProgramID).2 = none := by
  unfold parseIDs at h
  split at h
  · cases h
  · simp only [hne, ne_eq, not_false_eq_true, if_true] at h
    split at h
    · cases h
    · rename_i tp htp
      cases h
      rw [htp]
      exact ⟨rfl, rfl⟩

/-- The top-level scan ends with the program id of the last top-level instruction of a
well-known token program. -/
theorem scanTopLevel_token_last (lib : Lib) (msg : Message)
    (pre post : List CompiledInstruction) (ci : CompiledInstruction) (prog : PublicKey)
    (s s1 : Service)
    (h : scanTopLevel lib msg (pre ++ ci :: post) s = .ok s1)
    (hci : msg.accountKeys[ci.programIDIndex]? = some prog)
    (htok : isTokenProgram prog = true)
    (hpost : ∀ c ∈ post, ∀ p, msg.accountKeys[c.programIDIndex]? = some p →
      isTokenProgram p = false) :
    s1.tokenProgram = prog := by
  rw [scanTopLevel_append] at h
  cases hp : scanTopLevel lib msg pre s with
  | error f => simp [hp] at h
  | ok sp =>
    simp only [hp] at h
    obtain ⟨prog1, s0, hprog, -, hrest⟩ := scanTopLevel_cons_ok lib msg ci post sp s1 h
    rw [hci] at hprog
    cases hprog
    simp only [htok, if_true] at hrest
    rcases scanTopLevel_token lib msg post _ s1 hrest with ⟨heq, -⟩ | ⟨ht, c, hc, hcp⟩
    · exact heq
    · rw [hpost c hc _ hcp] at ht
      cases ht

/-- C11 (as stated, refuted): the all-zero key is a valid, non-empty override, yet with it
configured the inner-instruction scan still runs: learning from the sample message
(no top-level token instruction) with the sample metadata yields the Token-2022 program
of the inner instruction as token program, not the override, and the first account of
that inner instruction as reward mint, not the mint of the post token balances. -/
theorem zero_override_runs_inner_scan :
    Sample.cfgZeroOverride.claim.tokenProgramID ≠ "" ∧
      parseIDs Sample.lib Sample.walletBytes Sample.cfgZeroOverride =
        .ok { emptyService Sample.walletBytes Sample.cfgZeroOverride with
              claimProgram := Sample.claimProgramID, tokenProgram := PublicKey.zero } ∧
      learnFromResolved Sample.lib
          { emptyService Sample.walletBytes Sample.cfgZeroOverride with
            claimProgram := Sample.claimProgramID, tokenProgram := PublicKey.zero }
          Sample.msgClaimOnly (some Sample.txMeta) =
        .ok { Sample.service with cfg := Sample.cfgZeroOverride } ∧
      ¬ (({ Sample.service with cfg := Sample.cfgZeroOverride } : Service).tokenProgram =
          (Sample.lib.publicKeyFromBase58 Sample.cfgZeroOverride.claim.tokenProgramID).1) ∧
      ¬ (({ Sample.service with cfg := Sample.cfgZeroOverride } : Service).mint =
          Sample.balanceMint) ∧
      ({ Sample.service with cfg := Sample.cfgZeroOverride } : Service).mint =
        Sample.mintKey := by
  refine ⟨by decide, rfl, rfl, by decide, by decide, rfl⟩

/-- C11 (amended): for every reference transaction learned with a configured override
that `NewService` accepted and that is not the all-zero key: the template's token program
equals the override when no top-level instruction has a well-known token program as
program id, and otherwise equals the program id of the last such top-level instruction;
the inner-instruction scan is skipped, so the reward mint is the mint of the first post
token balance of the metadata, and stays zero when the metadata is absent or has no post
token balance. -/
theorem override_precedence (lib : Lib) (wallet : List Nat) (cfg : Config) (s : Service)
    (msg : Message) (txMeta : Option TransactionMeta) (sr : Service)
    (hs : parseIDs lib wallet cfg = .ok s)
    (hcfg : cfg.claim.tokenProgramID ≠ "")
    (hnz : (lib.publicKeyFromBase58 cfg.claim.tokenProgramID).1.IsZero = false)
    (hlearn : learnFromResolved lib s msg txMeta = .ok sr) :
    ((∀ ci ∈ msg.instructions, ∀ prog, msg.accountKeys[ci.programIDIndex]? = some prog →
          isTokenProgram prog = false) →
        sr.tokenProgram = (lib.publicKeyFromBase58 cfg.claim.tokenProgramID).1) ∧
      (∀ pre post ci prog, msg.instructions = pre ++ ci :: post →
        msg.accountKeys[ci.programIDIndex]? = some prog → isTokenProgram prog = true →
        (∀ c ∈ post, ∀ p, msg.accountKeys[c.programIDIndex]? = some p →
          isTokenProgram p = false) →
        sr.tokenProgram = prog) ∧
      (∀ s1, scanTopLevel lib msg msg.instructions s = .ok s1 →
        scanInnerIfUnknown lib msg txMeta s1 = s1) ∧
      (∀ m b rest, txMeta = some m → m.postTokenBalances = b :: rest → sr.mint = b.mint) ∧
      (txMeta = none ∨ (∃ m, txMeta = some m ∧ m.postTokenBalances = []) →
        sr.mint = PublicKey.zero) := by
  obtain ⟨-, -, -, -, -, hmint, -⟩ := parseIDs_ok lib wallet cfg s hs
  obtain ⟨htp, -⟩ := parseIDs_override lib wallet cfg s hs hcfg
  obtain ⟨s1, h1, hsr, -, -, -⟩ := learnFromResolved_ok lib s msg txMeta sr hlearn
  obtain ⟨-, -, -, hm1⟩ := scanTopLevel_frame lib msg _ s s1 h1
  have hnz1 : s1.tokenProgram.IsZero = false := by
    rcases scanTopLevel_token lib msg _ s s1 h1 with ⟨heq, -⟩ | ⟨ht, -⟩
    · rw [heq, htp]
      exact hnz
    · exact isTokenProgram_ne_zero _ ht
  have hskip : scanInnerIfUnknown lib msg txMeta s1 = s1 := by
    unfold scanInnerIfUnknown
    cases txMeta with
    | none => rfl
    | some m => simp [hnz1]
  rw [hskip] at hsr
  have hz1 : s1.mint.IsZero = true := by
    rw [hm1, hmint]
    rfl
  have hz1eq : s1.mint = PublicKey.zero := by
    rw [hm1, hmint]
  have htok : sr.tokenProgram = s1.tokenProgram := by
    rw [hsr]
    exact (fallbackMint_frame txMeta s1).2.2.2.2.2
  refine ⟨?_, ?_, ?_, ?_, ?_⟩
  · intro htop
    rw [htok]
    rcases scanTopLevel_token lib msg _ s s1 h1 with ⟨heq, -⟩ | ⟨ht, c, hc, hcp⟩
    · rw [heq, htp]
    · rw [htop c hc _ hcp] at ht
      cases ht
  · intro pre post ci prog hsplit hci hprog hpost
    rw [htok]
    exact scanTopLevel_token_last lib msg pre post ci prog s s1 (hsplit ▸ h1) hci hprog hpost
  · intro s1b h1b
    rw [h1] at h1b
    cases h1b
    exact hskip
  · intro m b rest hm hb
    subst hm
    rw [hsr]
    simp [fallbackMint, hz1, hb]
  · intro h
    rw [hsr]
    rcases h with h | ⟨m, hm, hb⟩
    · subst h
      simp [fallbackMint, hz1, hz1eq]
    · subst hm
      simp [fallbackMint, hz1, hb, hz1eq]

/-- C11 witness: with the Tokenkeg program configured as override, learning from the
sample message, whose second top-level instruction is of the Token-2022 program, yields
Token-2022 as token program, and the mint of the post token balance although an inner
token instruction references another mint first. -/
theorem override_precedence_witness :
    ({ Sample.service with
        cfg := Sample.cfgOverride, mint := Sample.balanceMint } : Service).tokenProgram =
        Sample.token2022 ∧
      ({ Sample.service with
        cfg := Sample.cfgOverride, mint := Sample.balanceMint } : Service).mint =
        Sample.balanceMint ∧
      learnFromResolved Sample.lib
          { emptyService Sample.walletBytes Sample.cfgOverride with
            claimProgram := Sample.claimProgramID, tokenProgram := Sample.tokenkeg }
          Sample.msg (some Sample.txMeta) =
        .ok { Sample.service with cfg := Sample.cfgOverride, mint := Sample.balanceMint } :=
  ⟨(override_precedence Sample.lib Sample.walletBytes Sample.cfgOverride
      { emptyService Sample.walletBytes Sample.cfgOverride with
        claimProgram := Sample.claimProgramID, tokenProgram := Sample.tokenkeg }
      Sample.msg (some Sample.txMeta)
      { Sample.service with cfg := Sample.cfgOverride, mint := Sample.balanceMint }
      rfl (by decide) (by decide) rfl).2.1
      [ { programIDIndex := 3, accounts := [0, 1, 2], data := [0xAA, 0xBB, 0xCC] } ] []
      { programIDIndex := 4, accounts := [1, 0], data := [3] } Sample.token2022
      rfl rfl (by decide) (by simp),
    (override_precedence Sample.lib Sample.walletBytes Sample.cfgOverride
      { emptyService Sample.walletBytes Sample.cfgOverride with
        claimProgram := Sample.claimProgramID, tokenProgram := Sample.tokenkeg }
      Sample.msg (some Sample.txMeta)
      { Sample.service with cfg := Sample.cfgOverride, mint := Sample.balanceMint }
      rfl (by decide) (by decide) rfl).2.2.2.1
      Sample.txMeta { accountIndex := 1, mint := Sample.balanceMint } [] rfl rfl,
    rfl⟩

end ClaimService

namespace Wallet

/-- C10: for every wallet configuration: if a base58 secret is set and decodes to `b`,
`Load` succeeds if and only if `b` has 64 bytes and then returns exactly `b`, and
otherwise fails with the error `secret_key_b58 has N bytes; want 64`; if no secret is
set, a keypair file is set, is read and parses as the byte array `a`, `Load` succeeds if
and only if `a` has 64 bytes and then returns exactly `a`, and otherwise fails with the
error `keypair file has N bytes; want 64`; with neither source set `Load` fails with the
error `no wallet configured: ...`. -/
theorem load_key_length (env : Env) (c : WalletConfig) :
    (∀ b, c.secretKeyB58 ≠ "" → env.base58Decode c.secretKeyB58 = .ok b →
        ((∃ key, Load env c = .ok key) ↔ b.length = 64) ∧
          (b.length = 64 → Load env c = .ok b) ∧
          (b.length ≠ 64 → Load env c =
            .error (errSecretLength b.length))) ∧
      (∀ raw a, c.secretKeyB58 = "" → c.keypairPath ≠ "" →
        env.readFile (expandHome env (env.expandEnv c.keypairPath)) = .ok raw →
        env.jsonUnmarshalBytes raw = .ok a →
        ((∃ key, Load env c = .ok key) ↔ a.length = 64) ∧
          (a.length = 64 → Load env c = .ok a) ∧
          (a.length ≠ 64 → Load env c =
            .error (errKeypairLength a.length))) ∧
      (c.secretKeyB58 = "" → c.keypairPath = "" → Load env c = .error errNoWallet) := by
  refine ⟨?_, ?_, ?_⟩
  · intro b hset hdec
    have hrun : Load env c =
        if b.length ≠ privateKeySize then .error (errSecretLength b.length) else .ok b := by
      simp only [Load, hset, hdec, ne_eq, not_false_eq_true, if_true]
    by_cases hl : b.length = 64
    · have : Load env c = .ok b := by
        rw [hrun, if_neg (by simpa [privateKeySize] using hl)]
      exact ⟨⟨fun _ => hl, fun _ => ⟨b, this⟩⟩, fun _ => this, fun h => absurd hl h⟩
    · have : Load env c = .error (errSecretLength b.length) := by
        rw [hrun, if_pos (by simpa [privateKeySize] using hl)]
      refine ⟨⟨?_, fun h => absurd h hl⟩, fun h => absurd h hl, fun _ => ?_⟩
      · rintro ⟨key, hk⟩
        rw [this] at hk
        cases hk
      · exact this
  · intro raw a hunset hpath hread hparse
    have hrun : Load env c =
        if a.length ≠ privateKeySize then .error (errKeypairLength a.length) else .ok a := by
      simp only [Load, hunset, hpath, hread, hparse, ne_eq, not_true_eq_false,
        not_false_eq_true, if_true, if_false]
    by_cases hl : a.length = 64
    · have : Load env c = .ok a := by
        rw [hrun, if_neg (by simpa [privateKeySize] using hl)]
      exact ⟨⟨fun _ => hl, fun _ => ⟨a, this⟩⟩, fun _ => this, fun h => absurd hl h⟩
    · have : Load env c = .error (errKeypairLength a.length) := by
        rw [hrun, if_pos (by simpa [privateKeySize] using hl)]
      refine ⟨⟨?_, fun h => absurd h hl⟩, fun h => absurd h hl, fun _ => ?_⟩
      · rintro ⟨key, hk⟩
        rw [this] at hk
        cases hk
      · exact this
  · intro h1 h2
    simp [Load, h1, h2]

/-- C10 witness: a base58 secret of 64 bytes is returned as decoded, one of 32 bytes is
rejected, and a keypair file under the home directory with 64 bytes is returned. -/
theorem load_key_length_witness :
    Load Sample.walletEnv { keypairPath := "", secretKeyB58 := "5ecret" } =
        .ok (List.replicate 64 7) ∧
      Load Sample.walletEnv { keypairPath := "", secretKeyB58 := "5hort" } =
        .error (errSecretLength 32) ∧
      Load Sample.walletEnv { keypairPath := "~/id.json", secretKeyB58 := "" } =
        .ok (List.replicate 64 9) :=
  ⟨((load_key_length Sample.walletEnv { keypairPath := "", secretKeyB58 := "5ecret" }).1
      (List.replicate 64 7) (by decide) rfl).2.1 (by decide),
    ((load_key_length Sample.walletEnv { keypairPath := "", secretKeyB58 := "5hort" }).1
      (List.replicate 32 7) (by decide) rfl).2.2 (by decide),
    ((load_key_length Sample.walletEnv { keypairPath := "~/id.json", secretKeyB58 := "" }).2.1
      "[9, ...]" (List.replicate 64 9) rfl (by decide) rfl rfl).2.1 (by decide)⟩

end Wallet
